import Mathlib

/-!
# Verification of the keyframe animation track engine

Shallow embedding of the `Animation` class (typed keyframe animation
evaluation engine): key store, range and event registries, the evaluator
(`_interpolate` / `evaluate`), cloning, serialization/parsing, and the
additive converter (`MakeAnimationAdditive`).

Modelling conventions:
* JS numbers are modelled as exact rationals (`ℚ`).  JS float rounding,
  `NaN` and `Infinity` are not represented; where the source can produce a
  non-numeric value (subtracting an object from a number, calling a method
  of `undefined`) the model returns `Option.none` or a documented junk
  default, and every theorem restricts itself to inputs on which the model
  and the source agree.
* The per-type math primitives (`Scalar.Lerp`, `Vector3.Lerp`, `Hermite`,
  `Quaternion.Slerp`, matrix decomposition, ...) live in the repository's
  math library, which is not part of the shown sources; they are modelled
  from the spec where marked.  Transcendental internals (trigonometric
  slerp weights, square roots in normalization/decomposition) are not
  representable over `ℚ`; their stand-ins are documented at each
  definition, and no theorem below depends on the stand-in values.
* JS object mutation and aliasing is invisible in a value model; a small
  explicit reference/heap model (`ObjStore`) is introduced for the clone
  independence claim, mirroring which operations copy arrays
  (`slice(0)` keeps the element references) and which allocate
  (`range.clone()`).
-/

namespace BabylonAnim

/-- Float animation type (source: `ANIMATIONTYPE_FLOAT = 0`). -/
def ANIMATIONTYPE_FLOAT : Nat := 0
/-- Vector3 animation type (source: `ANIMATIONTYPE_VECTOR3 = 1`). -/
def ANIMATIONTYPE_VECTOR3 : Nat := 1
/-- Quaternion animation type (source: `ANIMATIONTYPE_QUATERNION = 2`). -/
def ANIMATIONTYPE_QUATERNION : Nat := 2
/-- Matrix animation type (source: `ANIMATIONTYPE_MATRIX = 3`). -/
def ANIMATIONTYPE_MATRIX : Nat := 3
/-- Color3 animation type (source: `ANIMATIONTYPE_COLOR3 = 4`). -/
def ANIMATIONTYPE_COLOR3 : Nat := 4
/-- Vector2 animation type (source: `ANIMATIONTYPE_VECTOR2 = 5`). -/
def ANIMATIONTYPE_VECTOR2 : Nat := 5
/-- Size animation type (source: `ANIMATIONTYPE_SIZE = 6`). -/
def ANIMATIONTYPE_SIZE : Nat := 6
/-- Color4 animation type (source: `ANIMATIONTYPE_COLOR4 = 7`). -/
def ANIMATIONTYPE_COLOR4 : Nat := 7
/-- Relative loop mode (source: `ANIMATIONLOOPMODE_RELATIVE = 0`). -/
def ANIMATIONLOOPMODE_RELATIVE : Nat := 0
/-- Cycle loop mode (source: `ANIMATIONLOOPMODE_CYCLE = 1`). -/
def ANIMATIONLOOPMODE_CYCLE : Nat := 1
/-- Constant loop mode (source: `ANIMATIONLOOPMODE_CONSTANT = 2`). -/
def ANIMATIONLOOPMODE_CONSTANT : Nat := 2
/-- Yoyo loop mode (source: `ANIMATIONLOOPMODE_YOYO = 4`). -/
def ANIMATIONLOOPMODE_YOYO : Nat := 4

/-- Modelled from the spec: the `AnimationKeyInterpolation.STEP` flag of the
`animationKey` module (not among the shown sources).  Keys carry it as a
numeric enum value; `STEP = 1`. -/
def AnimationKeyInterpolation_STEP : ℚ := 1

/-- The closed set of animated data values: scalar, 2D/3D vector,
quaternion, 3/4 channel color, size, and a 4×4 matrix kept as its 16-entry
flattened component list.  Components are exact rationals (see the header
note on JS numbers). -/
inductive Value where
  | float (x : ℚ)
  | vec2 (x y : ℚ)
  | vec3 (x y z : ℚ)
  | quat (x y z w : ℚ)
  | color3 (r g b : ℚ)
  | color4 (r g b a : ℚ)
  | size (width height : ℚ)
  | matrix (m : List ℚ)
  deriving DecidableEq, Repr

/-- A keyframe (`IAnimationKey`): frame, value, optional in/out tangents and
an optional numeric interpolation flag. -/
structure Key where
  frame : ℚ
  value : Value
  inTangent : Option Value
  outTangent : Option Value
  interpolation : Option ℚ
  deriving DecidableEq, Repr

/-- A plain key with no tangents and no interpolation flag. -/
def mkKey (frame : ℚ) (value : Value) : Key :=
  ⟨frame, value, none, none, none⟩

/-- An animation range (`AnimationRange`): a named frame interval.  The
source fields are called `from` and `to`; they are renamed `fromFrame` /
`toFrame` here because `from` is a Lean keyword. -/
structure AnimationRange where
  name : String
  fromFrame : ℚ
  toFrame : ℚ
  deriving DecidableEq, Repr

/-- An animation event: a frame plus a payload that is opaque to this core;
the payload is modelled as a bare identifier so that distinct events at the
same frame can be told apart in ordering statements. -/
structure AnimEvent where
  frame : ℚ
  payload : Nat
  deriving DecidableEq, Repr

/-- The caller-owned evaluation cursor (`_IAnimationState`).  `key` is the
cached left-key index hint (a JS number that may go to `-1`, hence `ℤ`);
`loopMode` and the three value slots are optional exactly as in the source
class. -/
structure AState where
  key : ℤ
  repeatCount : Nat
  loopMode : Option Nat
  workValue : Option Value
  offsetValue : Option Value
  highLimitValue : Option Value

/-- A cursor with only the three mandatory-in-practice fields set. -/
def mkAState (key : ℤ) (repeatCount : Nat) (loopMode : Nat) : AState :=
  ⟨key, repeatCount, some loopMode, none, none, none⟩

/-- The two global matrix-interpolation switches
(`Animation.AllowMatricesInterpolation`, default `false`, and
`Animation.AllowMatrixDecomposeForInterpolation`, default `true`), threaded
explicitly as a configuration value. -/
structure AnimConfig where
  allowMatricesInterpolation : Bool
  allowMatrixDecomposeForInterpolation : Bool

/-- The default values of the global switches. -/
def defaultConfig : AnimConfig := ⟨false, true⟩

/-- The `Animation` entity (a track).  `ranges` is the source's
name-indexed object `_ranges`, modelled as an insertion-ordered association
list whose entries may hold `none` (the `null` tombstone).  `easing` is the
injected easing hook (`IEasingFunction.ease`). -/
structure Animation where
  name : String
  targetProperty : String
  targetPropertyPath : List String
  framePerSecond : ℚ
  dataType : Nat
  loopMode : Nat
  enableBlending : Option Bool
  blendingSpeed : ℚ
  keys : List Key
  ranges : List (String × Option AnimationRange)
  events : List AnimEvent
  easing : Option (ℚ → ℚ)

/-- The `Animation` constructor: splits the target property path, applies
the `loopMode === undefined ? CYCLE : loopMode` default, and starts with the
field defaults (`blendingSpeed = 0.01`, empty key/range/event stores, no
easing function).  `uniqueId`/`snippetId` bookkeeping is omitted. -/
def mkAnimation (name targetProperty : String) (framePerSecond : ℚ)
    (dataType : Nat) (loopMode : Option Nat) (enableBlending : Option Bool) :
    Animation :=
  { name := name
    targetProperty := targetProperty
    targetPropertyPath := targetProperty.splitOn "."
    framePerSecond := framePerSecond
    dataType := dataType
    loopMode := loopMode.getD ANIMATIONLOOPMODE_CYCLE
    enableBlending := enableBlending
    blendingSpeed := 1 / 100
    keys := []
    ranges := []
    events := []
    easing := none }

/-- `setKeys`: replaces the key store with (a copy of) the given array.  In
the value model the `values.slice(0)` array copy is the identity; which key
objects are aliased by it is captured by the reference model further below. -/
def Animation.setKeys (a : Animation) (values : List Key) : Animation :=
  { a with keys := values }

/-- `setEasingFunction`. -/
def Animation.setEasingFunction (a : Animation) (e : Option (ℚ → ℚ)) : Animation :=
  { a with easing := e }

/-! ## Per-type interpolation primitives

The scalar/vector/color/size `Lerp` and `Hermite` functions live in the
math library, outside the shown sources. -/

/-- Modelled from the spec: `Scalar.Lerp` — `start + (end - start) * amount`. -/
def qlerp (s e g : ℚ) : ℚ := s + (e - s) * g

/-- Modelled from the spec: `Scalar.Hermite` — the standard cubic Hermite
basis over `(value1, tangent1, value2, tangent2, amount)`. -/
def qhermite (v1 t1 v2 t2 g : ℚ) : ℚ :=
  let squared := g * g
  let cubed := squared * g
  v1 * (2 * cubed - 3 * squared + 1) + v2 * (-2 * cubed + 3 * squared) +
    t1 * (cubed - 2 * squared + g) + t2 * (cubed - squared)

/-- Component-wise linear interpolation on matching value shapes (models
the math library `Lerp` of every data type; mismatched shapes — a dynamic
type error in JS — return the interpolated-from value as junk). -/
def vlerp : Value → Value → ℚ → Value
  | Value.float a, Value.float b, g => Value.float (qlerp a b g)
  | Value.vec2 a b, Value.vec2 a' b', g => Value.vec2 (qlerp a a' g) (qlerp b b' g)
  | Value.vec3 a b c, Value.vec3 a' b' c', g =>
      Value.vec3 (qlerp a a' g) (qlerp b b' g) (qlerp c c' g)
  | Value.quat a b c d, Value.quat a' b' c' d', g =>
      Value.quat (qlerp a a' g) (qlerp b b' g) (qlerp c c' g) (qlerp d d' g)
  | Value.color3 a b c, Value.color3 a' b' c', g =>
      Value.color3 (qlerp a a' g) (qlerp b b' g) (qlerp c c' g)
  | Value.color4 a b c d, Value.color4 a' b' c' d', g =>
      Value.color4 (qlerp a a' g) (qlerp b b' g) (qlerp c c' g) (qlerp d d' g)
  | Value.size a b, Value.size a' b', g => Value.size (qlerp a a' g) (qlerp b b' g)
  | Value.matrix m, Value.matrix m', g =>
      Value.matrix (List.zipWith (fun x y => qlerp x y g) m m')
  | v, _, _ => v

/-- Component-wise cubic Hermite interpolation on matching value shapes
(models the math library `Hermite` of every non-matrix data type). -/
def vhermite : Value → Value → Value → Value → ℚ → Value
  | Value.float a, Value.float t1, Value.float b, Value.float t2, g =>
      Value.float (qhermite a t1 b t2 g)
  | Value.vec2 a b, Value.vec2 ta tb, Value.vec2 a' b', Value.vec2 ta' tb', g =>
      Value.vec2 (qhermite a ta a' ta' g) (qhermite b tb b' tb' g)
  | Value.vec3 a b c, Value.vec3 ta tb tc, Value.vec3 a' b' c', Value.vec3 ta' tb' tc', g =>
      Value.vec3 (qhermite a ta a' ta' g) (qhermite b tb b' tb' g) (qhermite c tc c' tc' g)
  | Value.quat a b c d, Value.quat ta tb tc td, Value.quat a' b' c' d',
      Value.quat ta' tb' tc' td', g =>
      Value.quat (qhermite a ta a' ta' g) (qhermite b tb b' tb' g)
        (qhermite c tc c' tc' g) (qhermite d td d' td' g)
  | Value.color3 a b c, Value.color3 ta tb tc, Value.color3 a' b' c',
      Value.color3 ta' tb' tc', g =>
      Value.color3 (qhermite a ta a' ta' g) (qhermite b tb b' tb' g) (qhermite c tc c' tc' g)
  | Value.color4 a b c d, Value.color4 ta tb tc td, Value.color4 a' b' c' d',
      Value.color4 ta' tb' tc' td', g =>
      Value.color4 (qhermite a ta a' ta' g) (qhermite b tb b' tb' g)
        (qhermite c tc c' tc' g) (qhermite d td d' td' g)
  | v, _, _, _, _ => v

/-- Component-wise scaling (models the math library `scale`; for a scalar
it is plain multiplication).  The loop-mode postprocessing applies it to
`offsetValue` and to tangents. -/
def Value.scale : Value → ℚ → Value
  | Value.float a, q => Value.float (a * q)
  | Value.vec2 a b, q => Value.vec2 (a * q) (b * q)
  | Value.vec3 a b c, q => Value.vec3 (a * q) (b * q) (c * q)
  | Value.quat a b c d, q => Value.quat (a * q) (b * q) (c * q) (d * q)
  | Value.color3 a b c, q => Value.color3 (a * q) (b * q) (c * q)
  | Value.color4 a b c d, q => Value.color4 (a * q) (b * q) (c * q) (d * q)
  | Value.size a b, q => Value.size (a * q) (b * q)
  | Value.matrix m, q => Value.matrix (m.map (· * q))

/-- Component-wise addition on matching value shapes (models the math
library `add` / `addInPlace`; a scalar is plain addition; mismatched shapes
return the left operand as junk). -/
def Value.add : Value → Value → Value
  | Value.float a, Value.float b => Value.float (a + b)
  | Value.vec2 a b, Value.vec2 a' b' => Value.vec2 (a + a') (b + b')
  | Value.vec3 a b c, Value.vec3 a' b' c' => Value.vec3 (a + a') (b + b') (c + c')
  | Value.quat a b c d, Value.quat a' b' c' d' =>
      Value.quat (a + a') (b + b') (c + c') (d + d')
  | Value.color3 a b c, Value.color3 a' b' c' => Value.color3 (a + a') (b + b') (c + c')
  | Value.color4 a b c d, Value.color4 a' b' c' d' =>
      Value.color4 (a + a') (b + b') (c + c') (d + d')
  | Value.size a b, Value.size a' b' => Value.size (a + a') (b + b')
  | v, _ => v

/-- `floatInterpolateFunction` — `Scalar.Lerp`. -/
def floatInterpolateFunction (s e g : ℚ) : ℚ := qlerp s e g

/-- `floatInterpolateFunctionWithTangents` — `Scalar.Hermite`. -/
def floatInterpolateFunctionWithTangents (s t1 e t2 g : ℚ) : ℚ := qhermite s t1 e t2 g

/-- `quaternionInterpolateFunction` — `Quaternion.Slerp`.  Modelled from the
spec: spherical linear interpolation; the spherical weights
(`acos`/`sin`) are not representable over `ℚ`, so the model uses the
component-wise linear interpolation, which agrees with slerp at the
endpoints (`gradient = 0` returns `startValue`, `gradient = 1` returns
`endValue`).  No theorem below depends on its interior values. -/
def quaternionInterpolateFunction (s e : Value) (g : ℚ) : Value := vlerp s e g

/-- Modelled from the spec: quaternion renormalization after cubic Hermite
interpolation.  Normalization divides by `√(x²+y²+z²+w²)`, which is not
representable over `ℚ`; the stand-in is the identity.  No theorem below
depends on its value. -/
def quatNormalizeModel (q : Value) : Value := q

/-- `quaternionInterpolateFunctionWithTangents` — quaternion Hermite
followed by renormalization. -/
def quaternionInterpolateFunctionWithTangents (s t1 e t2 : Value) (g : ℚ) : Value :=
  quatNormalizeModel (vhermite s t1 e t2 g)

/-- `vector3InterpolateFunction` — `Vector3.Lerp`. -/
def vector3InterpolateFunction (s e : Value) (g : ℚ) : Value := vlerp s e g

/-- `vector3InterpolateFunctionWithTangents` — `Vector3.Hermite`. -/
def vector3InterpolateFunctionWithTangents (s t1 e t2 : Value) (g : ℚ) : Value :=
  vhermite s t1 e t2 g

/-- `vector2InterpolateFunction` — `Vector2.Lerp`. -/
def vector2InterpolateFunction (s e : Value) (g : ℚ) : Value := vlerp s e g

/-- `vector2InterpolateFunctionWithTangents` — `Vector2.Hermite`. -/
def vector2InterpolateFunctionWithTangents (s t1 e t2 : Value) (g : ℚ) : Value :=
  vhermite s t1 e t2 g

/-- `sizeInterpolateFunction` — `Size.Lerp`. -/
def sizeInterpolateFunction (s e : Value) (g : ℚ) : Value := vlerp s e g

/-- `color3InterpolateFunction` — `Color3.Lerp`. -/
def color3InterpolateFunction (s e : Value) (g : ℚ) : Value := vlerp s e g

/-- `color3InterpolateFunctionWithTangents` — `Color3.Hermite`. -/
def color3InterpolateFunctionWithTangents (s t1 e t2 : Value) (g : ℚ) : Value :=
  vhermite s t1 e t2 g

/-- `color4InterpolateFunction` — `Color4.Lerp`. -/
def color4InterpolateFunction (s e : Value) (g : ℚ) : Value := vlerp s e g

/-- `color4InterpolateFunctionWithTangents` — `Color4.Hermite`. -/
def color4InterpolateFunctionWithTangents (s t1 e t2 : Value) (g : ℚ) : Value :=
  vhermite s t1 e t2 g

/-- `matrixInterpolateFunction`: decomposition-based blend when
`AllowMatrixDecomposeForInterpolation` is set, raw linear blend otherwise.
Modelled from the spec for the decompose branch: `Matrix.DecomposeLerp`
decomposes both matrices into scale/rotation/translation (square roots, not
representable over `ℚ`); its stand-in here is the component-wise blend.  No
theorem below evaluates this function (every claim runs with matrix
interpolation at its default-off configuration or on the `RELATIVE` path
that bypasses it). -/
def matrixInterpolateFunction (cfg : AnimConfig) (s e : Value) (g : ℚ) : Value :=
  if cfg.allowMatrixDecomposeForInterpolation then vlerp s e g
  else vlerp s e g

/-! ## The evaluator -/

/-- A junk key: the model's stand-in for a JS out-of-bounds array read
(`undefined`).  Every theorem below restricts its inputs so that this
default is never observed. -/
def defaultKey : Key := mkKey 0 (Value.float 0)

/-- `keys[i].frame` for a possibly out-of-range JS index: `none` when the
access would read `undefined` (accessing `.frame` of it then throws in JS;
the walk models this as loop exit — see `walkLeftGo`/`walkRightGo`). -/
def frameAt (keys : List Key) (i : ℤ) : Option ℚ :=
  if i < 0 then none else (keys.get? i.toNat).map Key.frame

/-- `keys[i]` with the junk default for out-of-range indices. -/
def keyAtD (keys : List Key) (i : ℤ) : Key :=
  if i < 0 then defaultKey else (keys.get? i.toNat).getD defaultKey

/-- The guard `currentFrame < keys[key].frame` of the left walk.  An
out-of-range read (on which the JS `.frame` access throws) yields `false`,
exiting the loop; no theorem below reaches that case. -/
def ltFrameAt (keys : List Key) (currentFrame : ℚ) (i : ℤ) : Bool :=
  match frameAt keys i with
  | some fr => decide (currentFrame < fr)
  | none => false

/-- The guard `currentFrame >= keys[key + 1].frame` of the right walk, with
the same out-of-range convention as `ltFrameAt`. -/
def geFrameAt (keys : List Key) (currentFrame : ℚ) (i : ℤ) : Bool :=
  match frameAt keys i with
  | some fr => decide (currentFrame ≥ fr)
  | none => false

/-- The left walk of `_interpolate`
(`while (key >= 0 && currentFrame < keys[key].frame) --key`), as a
fuel-indexed recursion; the fuel `key+1` is exactly the number of steps the
JS loop can take. -/
def walkLeftGo (keys : List Key) (currentFrame : ℚ) : Nat → ℤ → ℤ
  | 0, key => key
  | fuel + 1, key =>
    if key ≥ 0 ∧ ltFrameAt keys currentFrame key then
      walkLeftGo keys currentFrame fuel (key - 1)
    else key

/-- The left walk from the cursor's cached index. -/
def walkLeft (keys : List Key) (currentFrame : ℚ) (key : ℤ) : ℤ :=
  walkLeftGo keys currentFrame (key.toNat + 1) key

/-- The right walk of `_interpolate`
(`while (key + 1 <= keysLength - 1 && currentFrame >= keys[key + 1].frame) ++key`),
fuel-indexed; fuel `keys.length` covers every run that the JS loop
completes without throwing. -/
def walkRightGo (keys : List Key) (currentFrame : ℚ) : Nat → ℤ → ℤ
  | 0, key => key
  | fuel + 1, key =>
    if key + 1 ≤ (keys.length : ℤ) - 1 ∧ geFrameAt keys currentFrame (key + 1) then
      walkRightGo keys currentFrame fuel (key + 1)
    else key

/-- The right walk from the left walk's result. -/
def walkRight (keys : List Key) (currentFrame : ℚ) (key : ℤ) : ℤ :=
  walkRightGo keys currentFrame keys.length key

/-- The three-way loop-mode postprocessing switch shared by every non-matrix
case of `_interpolate`: `CYCLE`/`CONSTANT`/`YOYO` return the interpolated
value, `RELATIVE` returns the relative variant, anything else falls through
to the case's fallthrough result. -/
def loopSwitch (lm : Option Nat) (v relv dflt : Value) : Value :=
  if lm = some ANIMATIONLOOPMODE_CYCLE ∨ lm = some ANIMATIONLOOPMODE_CONSTANT ∨
      lm = some ANIMATIONLOOPMODE_YOYO then v
  else if lm = some ANIMATIONLOOPMODE_RELATIVE then relv
  else dflt

/-- The per-type `switch` of `_interpolate` on a resolved interior segment
(source lines `switch (this.dataType)` onward): computes the tangent-or-
linear interpolated value for the segment and applies the loop-mode
postprocessing; returns the value together with the `workValue` the matrix
branch may have written (every other branch leaves it unchanged). -/
def typeSwitch (cfg : AnimConfig) (a : Animation) (state : AState)
    (startKey endKey : Key) (gradient : ℚ) : Value × Option Value :=
  let startValue := startKey.value
  let endValue := endKey.value
  let useTangent := startKey.outTangent.isSome ∧ endKey.inTangent.isSome
  let frameDelta := endKey.frame - startKey.frame
  let outT := startKey.outTangent.getD (Value.float 0)
  let inT := endKey.inTangent.getD (Value.float 0)
  let offsetScaled := (state.offsetValue.getD (Value.float 0)).scale
    (state.repeatCount : ℚ)
  if a.dataType = ANIMATIONTYPE_FLOAT then
    let floatValue := if useTangent then
        vhermite startValue (outT.scale frameDelta) endValue (inT.scale frameDelta) gradient
      else vlerp startValue endValue gradient
    (loopSwitch state.loopMode floatValue (Value.add offsetScaled floatValue)
      (Value.float 0), state.workValue)
  else if a.dataType = ANIMATIONTYPE_QUATERNION then
    let quatValue := if useTangent then
        quaternionInterpolateFunctionWithTangents startValue (outT.scale frameDelta)
          endValue (inT.scale frameDelta) gradient
      else quaternionInterpolateFunction startValue endValue gradient
    (loopSwitch state.loopMode quatValue (Value.add quatValue offsetScaled)
      quatValue, state.workValue)
  else if a.dataType = ANIMATIONTYPE_VECTOR3 then
    let vec3Value := if useTangent then
        vector3InterpolateFunctionWithTangents startValue (outT.scale frameDelta)
          endValue (inT.scale frameDelta) gradient
      else vector3InterpolateFunction startValue endValue gradient
    (loopSwitch state.loopMode vec3Value (Value.add vec3Value offsetScaled)
      (Value.float 0), state.workValue)
  else if a.dataType = ANIMATIONTYPE_VECTOR2 then
    let vec2Value := if useTangent then
        vector2InterpolateFunctionWithTangents startValue (outT.scale frameDelta)
          endValue (inT.scale frameDelta) gradient
      else vector2InterpolateFunction startValue endValue gradient
    (loopSwitch state.loopMode vec2Value (Value.add vec2Value offsetScaled)
      (Value.float 0), state.workValue)
  else if a.dataType = ANIMATIONTYPE_SIZE then
    let sizeValue := sizeInterpolateFunction startValue endValue gradient
    (loopSwitch state.loopMode sizeValue (Value.add sizeValue offsetScaled)
      (Value.float 0), state.workValue)
  else if a.dataType = ANIMATIONTYPE_COLOR3 then
    let color3Value := if useTangent then
        color3InterpolateFunctionWithTangents startValue (outT.scale frameDelta)
          endValue (inT.scale frameDelta) gradient
      else color3InterpolateFunction startValue endValue gradient
    (loopSwitch state.loopMode color3Value (Value.add color3Value offsetScaled)
      (Value.float 0), state.workValue)
  else if a.dataType = ANIMATIONTYPE_COLOR4 then
    let color4Value := if useTangent then
        color4InterpolateFunctionWithTangents startValue (outT.scale frameDelta)
          endValue (inT.scale frameDelta) gradient
      else color4InterpolateFunction startValue endValue gradient
    (loopSwitch state.loopMode color4Value (Value.add color4Value offsetScaled)
      (Value.float 0), state.workValue)
  else if a.dataType = ANIMATIONTYPE_MATRIX then
    if state.loopMode = some ANIMATIONLOOPMODE_CYCLE ∨
        state.loopMode = some ANIMATIONLOOPMODE_CONSTANT ∨
        state.loopMode = some ANIMATIONLOOPMODE_YOYO then
      if cfg.allowMatricesInterpolation then
        let res := matrixInterpolateFunction cfg startValue endValue gradient
        (res, if state.workValue.isSome then some res else none)
      else (startValue, state.workValue)
    else if state.loopMode = some ANIMATIONLOOPMODE_RELATIVE then
      (startValue, state.workValue)
    else (Value.float 0, state.workValue)
  else (Value.float 0, state.workValue)

/-- The body of `_interpolate` from the boundary checks on the resolved
left-key index `key` onward (source lines `if (key < 0) ...` through the
`STEP` check and the gradient/easing computation, dispatching to
`typeSwitch`).  Returns the value together with the updated cursor (the
source has already stored `key` back into `state.key`, and the matrix
branch may write `state.workValue`).  `_getKeyValue` is the identity here
because modelled values are never functions. -/
def interpolateAtKey (cfg : AnimConfig) (a : Animation) (currentFrame : ℚ)
    (state : AState) (key : ℤ) : Value × AState :=
    let keys := a.keys
    let keysLength := keys.length
    let state1 : AState := { state with key := key }
    if key < 0 then
      ((keyAtD keys 0).value, state1)
    else if key + 1 > (keysLength : ℤ) - 1 then
      ((keyAtD keys ((keysLength : ℤ) - 1)).value, state1)
    else
      let startKey := keyAtD keys key
      let endKey := keyAtD keys (key + 1)
      let startValue := startKey.value
      let endValue := endKey.value
      if startKey.interpolation = some AnimationKeyInterpolation_STEP then
        (if endKey.frame > currentFrame then startValue else endValue, state1)
      else
        let frameDelta := endKey.frame - startKey.frame
        let gradientRaw := (currentFrame - startKey.frame) / frameDelta
        let gradient := match a.easing with
          | some ease => ease gradientRaw
          | none => gradientRaw
        let r := typeSwitch cfg a state startKey endKey gradient
        (r.1, { state1 with workValue := r.2 })

/-- `_interpolate(currentFrame, state)`: the `CONSTANT`-with-repeats
short-circuit to `highLimitValue` (reading it while unset throws in JS —
modelled by the junk default, never observed by a theorem), then the
two-sided key walk from the cursor's cached index, then the boundary checks
and the per-type dispatch of `interpolateAtKey`. -/
def _interpolate (cfg : AnimConfig) (a : Animation) (currentFrame : ℚ)
    (state : AState) : Value × AState :=
  if state.loopMode = some ANIMATIONLOOPMODE_CONSTANT ∧ state.repeatCount > 0 then
    (state.highLimitValue.getD (Value.float 0), state)
  else
    interpolateAtKey cfg a currentFrame state
      (walkRight a.keys currentFrame (walkLeft a.keys currentFrame state.key))

/-- `evaluate(currentFrame)`: evaluation with a fresh throwaway cursor
(`{ key: 0, repeatCount: 0, loopMode: CONSTANT }`). -/
def Animation.evaluate (cfg : AnimConfig) (a : Animation) (currentFrame : ℚ) : Value :=
  (_interpolate cfg a currentFrame (mkAState 0 0 ANIMATIONLOOPMODE_CONSTANT)).1

/-! ## Event registry -/

/-- The comparator handed to `Array.prototype.sort` in `addEvent`
(`(a, b) => a.frame - b.frame`), as the Boolean order it induces. -/
def eventLE (x y : AnimEvent) : Bool := decide (x.frame ≤ y.frame)

/-- `addEvent(event)`: push, then sort ascending by frame.
`Array.prototype.sort` is guaranteed stable by the ECMAScript standard; the
model uses the (stable) `List.mergeSort`. -/
def Animation.addEvent (a : Animation) (e : AnimEvent) : Animation :=
  { a with events := (a.events ++ [e]).mergeSort eventLE }

/-- The body of `removeEvents`: a forward `splice` loop with the index
stepped back after each removal, so every element is visited once in order
and the matching ones are dropped — rendered as the structural recursion
with exactly that behavior. -/
def removeEventsList (frame : ℚ) : List AnimEvent → List AnimEvent
  | [] => []
  | e :: rest =>
    if e.frame = frame then removeEventsList frame rest
    else e :: removeEventsList frame rest

/-- `removeEvents(frame)`: removes all events found at the given frame. -/
def Animation.removeEvents (a : Animation) (frame : ℚ) : Animation :=
  { a with events := removeEventsList frame a.events }

/-! ## Range registry -/

/-- `getRange(name)`: the registry entry for a name — `none` when the name
was never created, `some none` when it holds the `null` tombstone. -/
def Animation.getRangeEntry (a : Animation) (name : String) : Option (Option AnimationRange) :=
  a.ranges.lookup name

/-- `createRange(name, from, to)`: a no-op when the name maps to a live
range (`if (!this._ranges[name])`); a `null` tombstone or an absent name is
falsy and gets (re)assigned. -/
def Animation.createRange (a : Animation) (name : String) (f t : ℚ) : Animation :=
  match a.ranges.lookup name with
  | some (some _) => a
  | some none =>
      { a with ranges := a.ranges.map (fun e =>
          if e.1 = name then (e.1, some ⟨name, f, t⟩) else e) }
  | none => { a with ranges := a.ranges ++ [(name, some ⟨name, f, t⟩)] }

/-- The key-deleting pass of `deleteRange`: the source iterates the index
from `keys.length - 1` down to `0`, splicing out every key whose frame lies
in `[from, to]` (high-to-low so the pending indices stay valid).  `n` is
the number of leading positions still to visit; the entry point passes
`keys.length`. -/
def deleteKeysPass (f t : ℚ) : List Key → Nat → List Key
  | keys, 0 => keys
  | keys, n + 1 =>
    let keys' := match keys.get? n with
      | some k => if f ≤ k.frame ∧ k.frame ≤ t then keys.eraseIdx n else keys
      | none => keys
    deleteKeysPass f t keys' n

/-- `deleteRange(name, deleteFrames)`: missing names and tombstones are
no-ops; otherwise the covered keys are (optionally) deleted and the entry
is set to `null` — tombstoned in the mapping, not removed from it. -/
def Animation.deleteRange (a : Animation) (name : String) (deleteFrames : Bool) : Animation :=
  match a.ranges.lookup name with
  | none => a
  | some none => a
  | some (some range) =>
    let a1 := if deleteFrames then
        { a with keys := deleteKeysPass range.fromFrame range.toFrame a.keys a.keys.length }
      else a
    { a1 with ranges := a1.ranges.map (fun e => if e.1 = name then (e.1, none) else e) }

/-! ## Cloning (value level) -/

/-- `clone()`: a new `Animation` built by the constructor from
`name`, `targetPropertyPath.join(".")`, `framePerSecond`, `dataType`,
`loopMode`, copying `enableBlending` and `blendingSpeed`, `setKeys` on the
source's key array, and range-by-range `range.clone()` skipping `null`
tombstones.  Events and the easing function are not copied.  (Which objects
the copy aliases is captured by the reference model below.) -/
def Animation.clone (a : Animation) : Animation :=
  let c := mkAnimation a.name (String.intercalate "." a.targetPropertyPath)
    a.framePerSecond a.dataType (some a.loopMode) none
  let c := { c with enableBlending := a.enableBlending, blendingSpeed := a.blendingSpeed }
  let c := c.setKeys a.keys
  { c with ranges := a.ranges.filterMap (fun e =>
      e.2.map (fun r => (e.1, some r))) }

/-! ## Serialization -/

/-- One slot of a serialized key's `values` array: a number, a nested
flattened component array (tangents of non-scalar types are pushed with
`asArray()`), or the literal `undefined` hole pushed to keep later slots in
position. -/
inductive SVal where
  | num (q : ℚ)
  | arr (l : List ℚ)
  | undef
  deriving DecidableEq, Repr

/-- JS truthiness of a `values` slot: `undefined` and `0` are falsy; an
array is always truthy. -/
def SVal.truthy : SVal → Bool
  | SVal.num q => q ≠ 0
  | SVal.arr _ => true
  | SVal.undef => false

/-- JS loose `!= undefined` for a `values` slot. -/
def SVal.isDefined : SVal → Bool
  | SVal.undef => false
  | _ => true

/-- Read a `values` slot as a number (junk `0` when the slot is not a
number; the JS coercion would yield `NaN` — never load-bearing below). -/
def SVal.asNum : SVal → ℚ
  | SVal.num q => q
  | _ => 0

/-- Read a `values` slot as a component array (junk `[]` when the slot is
not an array; JS `FromArray` on a non-array reads `undefined` components —
never load-bearing below). -/
def SVal.asArr : SVal → List ℚ
  | SVal.arr l => l
  | _ => []

/-- A serialized keyframe: `{ frame, values }`; `values` is absent
(`none`) for the data types the `serialize` switch does not handle
(vector2 and size). -/
structure SKey where
  frame : ℚ
  values : Option (List SVal)
  deriving DecidableEq, Repr

/-- A serialized range `{ name, from, to }`. -/
structure SRange where
  name : String
  rFrom : ℚ
  rTo : ℚ
  deriving DecidableEq, Repr

/-- The serialized form of a track. -/
structure SAnimation where
  name : String
  property : String
  framePerSecond : ℚ
  dataType : Nat
  loopBehavior : Nat
  enableBlending : Option Bool
  blendingSpeed : ℚ
  keys : List SKey
  ranges : List SRange

/-- The flattened component list of a value (`asArray()`). -/
def Value.asArray : Value → List ℚ
  | Value.float x => [x]
  | Value.vec2 x y => [x, y]
  | Value.vec3 x y z => [x, y, z]
  | Value.quat x y z w => [x, y, z, w]
  | Value.color3 r g b => [r, g, b]
  | Value.color4 r g b a => [r, g, b, a]
  | Value.size w h => [w, h]
  | Value.matrix m => m

/-- The positional-append tail shared by both branches of the key
serializer: push `inTangent` if present; push `outTangent` if present
(padding with one `undefined` when `inTangent` was absent); push
`interpolation` if present (padding with `undefined` for each of
`inTangent`/`outTangent` that is absent — note this re-pads for an absent
`inTangent` even when the `outTangent` block already padded for it). -/
def pushOptionalSlots (base : List SVal) (inT outT : Option SVal)
    (interp : Option ℚ) : List SVal :=
  let vs := match inT with
    | some t => base ++ [t]
    | none => base
  let vs := match outT with
    | some t => (if inT = none then vs ++ [SVal.undef] else vs) ++ [t]
    | none => vs
  match interp with
  | some q =>
    let vs := if inT = none then vs ++ [SVal.undef] else vs
    let vs := if outT = none then vs ++ [SVal.undef] else vs
    vs ++ [SVal.num q]
  | none => vs

/-- The per-key body of `serialize()`: the float branch pushes tangents as
numbers, the quaternion/matrix/vector3/color3/color4 branch pushes the
value's flattened components and tangents as nested `asArray()` arrays;
vector2 and size have no branch and leave `values` unset. -/
def serializeKey (dataType : Nat) (k : Key) : SKey :=
  if dataType = ANIMATIONTYPE_FLOAT then
    { frame := k.frame
      values := some (pushOptionalSlots [SVal.num (k.value.asArray.headD 0)]
        (k.inTangent.map (fun t => SVal.num (t.asArray.headD 0)))
        (k.outTangent.map (fun t => SVal.num (t.asArray.headD 0)))
        k.interpolation) }
  else if dataType = ANIMATIONTYPE_QUATERNION ∨ dataType = ANIMATIONTYPE_MATRIX ∨
      dataType = ANIMATIONTYPE_VECTOR3 ∨ dataType = ANIMATIONTYPE_COLOR3 ∨
      dataType = ANIMATIONTYPE_COLOR4 then
    { frame := k.frame
      values := some (pushOptionalSlots (k.value.asArray.map SVal.num)
        (k.inTangent.map (fun t => SVal.arr t.asArray))
        (k.outTangent.map (fun t => SVal.arr t.asArray))
        k.interpolation) }
  else { frame := k.frame, values := none }

/-- `serialize()`: the flat metadata fields, the per-key `values` arrays,
and the non-tombstoned ranges in registry order. -/
def Animation.serialize (a : Animation) : SAnimation :=
  { name := a.name
    property := a.targetProperty
    framePerSecond := a.framePerSecond
    dataType := a.dataType
    loopBehavior := a.loopMode
    enableBlending := a.enableBlending
    blendingSpeed := a.blendingSpeed
    keys := a.keys.map (serializeKey a.dataType)
    ranges := a.ranges.filterMap (fun e =>
      e.2.map (fun r => ⟨e.1, r.fromFrame, r.toFrame⟩)) }

/-- `values[i]` of a serialized key: `undefined` when out of range. -/
def svalAt (vs : List SVal) (i : Nat) : SVal := (vs.get? i).getD SVal.undef

/-- The per-key body of `Animation.Parse`: reads the positional `values`
slots back by index with the source's per-type length/truthiness checks.
The quaternion branch expects *flattened* tangents at slots `4..8`/`8..12`
(contrast `serializeKey`, which nests them) and drops a tangent equal to
`Quaternion.Zero()`; the matrix branch reads `values[16]` as the
interpolation flag; the color4 branch calls `Color4.FromArray` on the
numeric interpolation slot — its junk result is modelled by the sentinel
`-1` (a JS `Color4` of `NaN`s; never load-bearing below). -/
def parseKey (dataType : Nat) (k : SKey) : Key :=
  let vs := k.values.getD []
  if dataType = ANIMATIONTYPE_FLOAT then
    { frame := k.frame
      value := Value.float (svalAt vs 0).asNum
      inTangent := if vs.length ≥ 2 ∧ (svalAt vs 1).isDefined then
          some (Value.float (svalAt vs 1).asNum) else none
      outTangent := if vs.length ≥ 3 ∧ (svalAt vs 2).isDefined then
          some (Value.float (svalAt vs 2).asNum) else none
      interpolation := if vs.length ≥ 4 ∧ (svalAt vs 3).isDefined then
          some (svalAt vs 3).asNum else none }
  else if dataType = ANIMATIONTYPE_QUATERNION then
    let fromFlat := fun (l : List SVal) =>
      Value.quat (svalAt l 0).asNum (svalAt l 1).asNum (svalAt l 2).asNum (svalAt l 3).asNum
    let zero := Value.quat 0 0 0 0
    { frame := k.frame
      value := fromFlat vs
      inTangent := if vs.length ≥ 8 ∧ fromFlat (vs.drop 4) ≠ zero then
          some (fromFlat (vs.drop 4)) else none
      outTangent := if vs.length ≥ 12 ∧ fromFlat (vs.drop 8) ≠ zero then
          some (fromFlat (vs.drop 8)) else none
      interpolation := if vs.length ≥ 13 ∧ (svalAt vs 12).isDefined then
          some (svalAt vs 12).asNum else none }
  else if dataType = ANIMATIONTYPE_MATRIX then
    { frame := k.frame
      value := Value.matrix ((vs.take 16).map SVal.asNum)
      inTangent := none
      outTangent := none
      interpolation := if vs.length ≥ 17 ∧ (svalAt vs 16).isDefined then
          some (svalAt vs 16).asNum else none }
  else if dataType = ANIMATIONTYPE_COLOR3 then
    { frame := k.frame
      value := Value.color3 (svalAt vs 0).asNum (svalAt vs 1).asNum (svalAt vs 2).asNum
      inTangent := if (svalAt vs 3).truthy then
          some (Value.color3 (((svalAt vs 3).asArr.getD 0 0)) ((svalAt vs 3).asArr.getD 1 0)
            ((svalAt vs 3).asArr.getD 2 0)) else none
      outTangent := if (svalAt vs 4).truthy then
          some (Value.color3 ((svalAt vs 4).asArr.getD 0 0) ((svalAt vs 4).asArr.getD 1 0)
            ((svalAt vs 4).asArr.getD 2 0)) else none
      interpolation := if (svalAt vs 5).truthy then some (svalAt vs 5).asNum else none }
  else if dataType = ANIMATIONTYPE_COLOR4 then
    { frame := k.frame
      value := Value.color4 (svalAt vs 0).asNum (svalAt vs 1).asNum (svalAt vs 2).asNum
        (svalAt vs 3).asNum
      inTangent := if (svalAt vs 4).truthy then
          some (Value.color4 ((svalAt vs 4).asArr.getD 0 0) ((svalAt vs 4).asArr.getD 1 0)
            ((svalAt vs 4).asArr.getD 2 0) ((svalAt vs 4).asArr.getD 3 0)) else none
      outTangent := if (svalAt vs 5).truthy then
          some (Value.color4 ((svalAt vs 5).asArr.getD 0 0) ((svalAt vs 5).asArr.getD 1 0)
            ((svalAt vs 5).asArr.getD 2 0) ((svalAt vs 5).asArr.getD 3 0)) else none
      interpolation := if (svalAt vs 6).truthy then some (-1) else none }
  else
    -- `ANIMATIONTYPE_VECTOR3` and the `default:` fallthrough share a branch
    { frame := k.frame
      value := Value.vec3 (svalAt vs 0).asNum (svalAt vs 1).asNum (svalAt vs 2).asNum
      inTangent := if (svalAt vs 3).truthy then
          some (Value.vec3 ((svalAt vs 3).asArr.getD 0 0) ((svalAt vs 3).asArr.getD 1 0)
            ((svalAt vs 3).asArr.getD 2 0)) else none
      outTangent := if (svalAt vs 4).truthy then
          some (Value.vec3 ((svalAt vs 4).asArr.getD 0 0) ((svalAt vs 4).asArr.getD 1 0)
            ((svalAt vs 4).asArr.getD 2 0)) else none
      interpolation := if (svalAt vs 5).truthy then some (svalAt vs 5).asNum else none }

/-- The truthiness-guarded `enableBlending` assignment of `Parse`
(`if (parsedAnimation.enableBlending) { ... }`). -/
def applyEnableBlending (p : SAnimation) (animation : Animation) : Animation :=
  match p.enableBlending with
  | some b => if b then { animation with enableBlending := some b } else animation
  | none => animation

/-- The truthiness-guarded `blendingSpeed` assignment of `Parse`. -/
def applyBlendingSpeed (p : SAnimation) (animation : Animation) : Animation :=
  if p.blendingSpeed ≠ 0 then { animation with blendingSpeed := p.blendingSpeed }
  else animation

/-- `Animation.Parse(parsedAnimation)`: rebuilds the track through the
constructor, applies the truthiness-guarded `enableBlending` /
`blendingSpeed` assignments, parses and sets the keys, and re-creates every
serialized range. -/
def Animation.Parse (p : SAnimation) : Animation :=
  p.ranges.foldl (fun a r => a.createRange r.name r.rFrom r.rTo)
    ((applyBlendingSpeed p (applyEnableBlending p
      (mkAnimation p.name p.property p.framePerSecond p.dataType
        (some p.loopBehavior) none))).setKeys (p.keys.map (parseKey p.dataType)))

/-! ## The additive converter (`MakeAnimationAdditive`)

The converter is modelled as an `Option`-valued computation: `none` marks a
run on which the JS code throws (a method call on `undefined`, e.g.
`.normalize()` on a plain object or a `.frame` read past the end of the key
array) or leaves the numeric domain (`NaN` from subtracting a non-number) —
outcomes `ℚ` cannot represent.  Every confirmed theorem restricts its
inputs so that the model and the source agree. -/

/-- The converter's `valueStore.referenceValue` slot.  It usually holds a
value, but the one-key branch stores `_getKeyValue(animation._keys[0])` —
the key *object*, not its value (a plain key object has no `clone` method,
so the ternary keeps the object itself). -/
inductive RefValue where
  | val (v : Value)
  | keyObj (k : Key)
  deriving DecidableEq, Repr

/-- The loop-carried locals of the converter's bookend-hunting `while`
loop. -/
structure AdditiveLoopState where
  keys : List Key
  referenceValue : RefValue
  referenceFound : Bool
  fromKeyFound : Bool
  toKeyFound : Bool
  startIndex : Nat
  endIndex : Nat
  index : Nat

/-- One iteration of the bookend-hunting loop (minus the trailing
`index++`).  `currentKey`/`nextKey` reads of an out-of-range (`undefined`)
entry model the JS `.frame` throw as `none`; the `&&` short-circuits of the
source are mirrored by the nesting, so an access only happens when the
corresponding flag is still unset and the earlier comparisons passed. -/
def additiveLoopBody (cfg : AnimConfig) (a : Animation) (referenceFrame fromF toF : ℚ)
    (st : AdditiveLoopState) : Option AdditiveLoopState := do
  let st ←
    if st.referenceFound then some st else do
      let currentKey ← st.keys.get? st.index
      if referenceFrame ≥ currentKey.frame then do
        let nextKey ← st.keys.get? (st.index + 1)
        if referenceFrame ≤ nextKey.frame then
          let value := if referenceFrame = currentKey.frame then currentKey.value
            else if referenceFrame = nextKey.frame then nextKey.value
            else (_interpolate cfg { a with keys := st.keys } referenceFrame
              (mkAState st.index 0 ANIMATIONLOOPMODE_CONSTANT)).1
          some { st with referenceValue := RefValue.val value, referenceFound := true }
        else some st
      else some st
  let st ←
    if st.fromKeyFound then some st else do
      let currentKey ← st.keys.get? st.index
      if fromF ≥ currentKey.frame then do
        let nextKey ← st.keys.get? (st.index + 1)
        if fromF ≤ nextKey.frame then
          if fromF = currentKey.frame then
            some { st with startIndex := st.index, fromKeyFound := true }
          else if fromF = nextKey.frame then
            some { st with startIndex := st.index + 1, fromKeyFound := true }
          else
            let value := (_interpolate cfg { a with keys := st.keys } fromF
              (mkAState st.index 0 ANIMATIONLOOPMODE_CONSTANT)).1
            let keys' := st.keys.insertIdx (st.index + 1) (mkKey fromF value)
            some { st with keys := keys', startIndex := st.index + 1, fromKeyFound := true }
        else some st
      else some st
  let st ←
    if st.toKeyFound then some st else do
      let currentKey ← st.keys.get? st.index
      if toF ≥ currentKey.frame then do
        let nextKey ← st.keys.get? (st.index + 1)
        if toF ≤ nextKey.frame then
          if toF = currentKey.frame then
            some { st with endIndex := st.index, toKeyFound := true }
          else if toF = nextKey.frame then
            some { st with endIndex := st.index + 1, toKeyFound := true }
          else
            let value := (_interpolate cfg { a with keys := st.keys } toF
              (mkAState st.index 0 ANIMATIONLOOPMODE_CONSTANT)).1
            let keys' := st.keys.insertIdx (st.index + 1) (mkKey toF value)
            some { st with keys := keys', endIndex := st.index + 1, toKeyFound := true }
        else some st
      else some st
  some st

/-- The bookend-hunting `while` loop.  The fuel passed by the entry point
(`2·length + 8`) covers every run the JS loop completes: the index advances
by one per iteration, at most two keys are spliced in, and once the index
passes the key array an unfound flag makes the body throw (`none`). -/
def additiveLoop (cfg : AnimConfig) (a : Animation) (referenceFrame fromF toF : ℚ) :
    Nat → AdditiveLoopState → Option AdditiveLoopState
  | 0, _ => none
  | fuel + 1, st =>
    if ¬st.referenceFound ∨ ¬st.fromKeyFound ∨
        (¬st.toKeyFound ∧ st.index < st.keys.length - 1) then do
      let st' ← additiveLoopBody cfg a referenceFrame fromF toF st
      additiveLoop cfg a referenceFrame fromF toF fuel { st' with index := st'.index + 1 }
    else some st

/-- Modelled from the spec: the quaternion Hamilton product
(`multiplyToRef`) used to compose the conjugated reference with each key
value. -/
def quatMul : Value → Value → Value
  | Value.quat x1 y1 z1 w1, Value.quat x2 y2 z2 w2 =>
      Value.quat (x1 * w2 + y1 * z2 - z1 * y2 + w1 * x2)
        (-x1 * z2 + y1 * w2 + z1 * x2 + w1 * y2)
        (x1 * y2 - y1 * x2 + z1 * w2 + w1 * z2)
        (w1 * w2 - x1 * x2 - y1 * y2 - z1 * z2)
  | v, _ => v

/-- Modelled from the spec: the matrix additive rebasing
(decompose key and reference into scale/rotation/translation, subtract
translations, divide scales, compose the conjugated reference rotation, and
recompose).  The decomposition's square roots are not representable over
`ℚ`; the stand-in keeps the key matrix.  No theorem below depends on it. -/
def matrixAdditiveModel (_reference keyMatrix : List ℚ) : Value :=
  Value.matrix keyMatrix

/-- The post-loop reference fix-up: quaternions get
`normalize().conjugateInPlace()` (normalization is not representable over
`ℚ`; the stand-in conjugates only — no theorem depends on the quaternion
branch's values), matrices are decomposed (see `matrixAdditiveModel`).
Either method call throws (`none`) when the reference is not a value of the
right shape — in particular on the one-key branch's key object. -/
def processReference (dataType : Nat) (rv : RefValue) : Option RefValue :=
  if dataType = ANIMATIONTYPE_QUATERNION then
    match rv with
    | RefValue.val (Value.quat x y z w) => some (RefValue.val (Value.quat (-x) (-y) (-z) w))
    | _ => none
  else if dataType = ANIMATIONTYPE_MATRIX then
    match rv with
    | RefValue.val (Value.matrix m) => some (RefValue.val (Value.matrix m))
    | _ => none
  else some rv

/-- Component-wise subtraction on matching value shapes
(`subtractToRef`); `none` on a shape mismatch (a JS `NaN` product). -/
def subValueOpt : Value → Value → Option Value
  | Value.vec2 a b, Value.vec2 a' b' => some (Value.vec2 (a - a') (b - b'))
  | Value.vec3 a b c, Value.vec3 a' b' c' => some (Value.vec3 (a - a') (b - b') (c - c'))
  | Value.color3 a b c, Value.color3 a' b' c' =>
      some (Value.color3 (a - a') (b - b') (c - c'))
  | Value.color4 a b c d, Value.color4 a' b' c' d' =>
      some (Value.color4 (a - a') (b - b') (c - c') (d - d'))
  | _, _ => none

/-- The per-key body of the converter's subtraction pass (`switch` on the
data type).  `none` models a JS throw (a method call on a non-object) or a
`NaN` result (numeric subtraction of the key-object reference — the
`default:` branch computes `key.value -= referenceValue`). -/
def additiveSubKey (dataType : Nat) (rv : RefValue) (k : Key) : Option Key :=
  if dataType = ANIMATIONTYPE_MATRIX then
    match rv, k.value with
    | RefValue.val (Value.matrix rm), Value.matrix km =>
        some { k with value := matrixAdditiveModel rm km }
    | _, _ => none
  else if dataType = ANIMATIONTYPE_QUATERNION then
    match rv, k.value with
    | RefValue.val (Value.quat a b c d), Value.quat a' b' c' d' =>
        some { k with value := quatMul (Value.quat a b c d) (Value.quat a' b' c' d') }
    | _, _ => none
  else if dataType = ANIMATIONTYPE_VECTOR2 ∨ dataType = ANIMATIONTYPE_VECTOR3 ∨
      dataType = ANIMATIONTYPE_COLOR3 ∨ dataType = ANIMATIONTYPE_COLOR4 then
    match rv with
    | RefValue.val rvv => (subValueOpt k.value rvv).map (fun v => { k with value := v })
    | RefValue.keyObj _ => none
  else if dataType = ANIMATIONTYPE_SIZE then
    match rv, k.value with
    | RefValue.val (Value.size w h), Value.size w' h' =>
        some { k with value := Value.size (w' - w) (h' - h) }
    | _, _ => none
  else
    match rv, k.value with
    | RefValue.val (Value.float q), Value.float x =>
        some { k with value := Value.float (x - q) }
    | _, _ => none

/-- The subtraction pass: `for (index = startIndex; index <= endIndex;
index++)`, skipping a key when `index` is nonzero, the type is not float,
and the key's value is the first key's value (the source compares with
`===`, i.e. object identity; the structural comparison used here coincides
with it on every input a theorem below evaluates — the pass mutates values
in place, so aliasing survives mutation, and the compared first value is
the one captured before the pass).  `count` is the number of indices left
(`endIndex + 1 - startIndex` at entry). -/
def additiveSubLoop (dataType : Nat) (rv : RefValue) (firstValue : Value) :
    Nat → Nat → List Key → Option (List Key)
  | _, 0, keys => some keys
  | index, count + 1, keys => do
    let k ← keys.get? index
    if index ≠ 0 ∧ dataType ≠ ANIMATIONTYPE_FLOAT ∧ k.value = firstValue then
      additiveSubLoop dataType rv firstValue (index + 1) count keys
    else do
      let k' ← additiveSubKey dataType rv k
      additiveSubLoop dataType rv firstValue (index + 1) count (keys.set index k')

/-- The body of `MakeAnimationAdditive` after the clone/empty-track checks
and the negative-reference-frame clamp: resolves `from`/`to` from the named
range when it exists (a missing or tombstoned range keeps the full span),
resolves the one-key/before-first/after-last reference short-cuts, runs the
bookend-hunting loop, fixes up the reference, and runs the subtraction
pass. -/
def additiveCore (cfg : AnimConfig) (animation : Animation) (referenceFrame1 : ℚ)
    (range : Option String) : Option Animation :=
  let firstKey := keyAtD animation.keys 0
  let lastKey := keyAtD animation.keys ((animation.keys.length : ℤ) - 1)
  let fromTo := match range with
    | some rname =>
      match animation.getRangeEntry rname with
      | some (some rv) => (rv.fromFrame, rv.toFrame)
      | _ => (firstKey.frame, lastKey.frame)
    | none => (firstKey.frame, lastKey.frame)
  let st0 : AdditiveLoopState :=
    { keys := animation.keys
      referenceValue := RefValue.val firstKey.value
      referenceFound := false
      fromKeyFound := firstKey.frame = fromTo.1
      toKeyFound := lastKey.frame = fromTo.2
      startIndex := 0
      endIndex := animation.keys.length - 1
      index := 0 }
  let st1 :=
    if animation.keys.length = 1 then
      -- `_getKeyValue(animation._keys[0])`: the key object, not its value
      let rv := RefValue.keyObj (keyAtD animation.keys 0)
      { st0 with referenceValue := rv, referenceFound := true }
    else if referenceFrame1 ≤ firstKey.frame then
      { st0 with referenceValue := RefValue.val firstKey.value, referenceFound := true }
    else if referenceFrame1 ≥ lastKey.frame then
      { st0 with referenceValue := RefValue.val lastKey.value, referenceFound := true }
    else st0
  do
    let st2 ← additiveLoop cfg animation referenceFrame1 fromTo.1 fromTo.2
      (animation.keys.length * 2 + 8) st1
    let rv ← processReference animation.dataType st2.referenceValue
    let keys' ← additiveSubLoop animation.dataType rv firstKey.value st2.startIndex
      (st2.endIndex + 1 - st2.startIndex) st2.keys
    some { animation with keys := keys' }

/-- The animation the additive pass operates on: the source itself, or a
clone renamed per `clonedName` (with the `clonedName || animation.name`
falsy-string fallback: the empty string keeps the clone's name). -/
def additiveSelect (sourceAnimation : Animation) (cloneOriginal : Bool)
    (clonedName : Option String) : Animation :=
  if cloneOriginal then
    let c := sourceAnimation.clone
    { c with name := match clonedName with
        | some n => if n = "" then c.name else n
        | none => c.name }
  else sourceAnimation

/-- `MakeAnimationAdditive(sourceAnimation, referenceFrame, range,
cloneOriginal, clonedName)`: optionally clones, returns empty tracks
unchanged, clamps a negative reference frame to `0`
(`referenceFrame = referenceFrame >= 0 ? referenceFrame : 0`), and runs
`additiveCore`. -/
def MakeAnimationAdditive (cfg : AnimConfig) (sourceAnimation : Animation)
    (referenceFrame : ℚ) (range : Option String) (cloneOriginal : Bool)
    (clonedName : Option String) : Option Animation :=
  if (additiveSelect sourceAnimation cloneOriginal clonedName).keys.length = 0
  then some (additiveSelect sourceAnimation cloneOriginal clonedName)
  else additiveCore cfg (additiveSelect sourceAnimation cloneOriginal clonedName)
    (if referenceFrame ≥ 0 then referenceFrame else 0) range

/-! ## The reference (heap) model of cloning

The value model above cannot express which JS objects an operation aliases,
which is exactly what the clone-independence claim is about.  Here a track
is a list of key *references* plus name-to-reference range entries, and an
`ObjStore` is the heap of key and range objects.  `clone()` copies the key
reference array with `values.slice(0)` — the element references are kept —
while each live range gets a freshly allocated cell via `range.clone()`. -/

/-- A track at the reference level: key-object references in order, and the
`_ranges` mapping from names to range-object references (`none` is the
`null` tombstone). -/
structure RefAnimation where
  keyRefs : List Nat
  rangeEntries : List (String × Option Nat)
  deriving DecidableEq, Repr

/-- The heap of key and range objects; a reference is an index, and
allocation appends. -/
structure ObjStore where
  keyCells : List Key
  rangeCells : List AnimationRange
  deriving Repr

/-- Mutating a key object in place (e.g. assigning `key.frame` or
`key.value` through any reference to it). -/
def writeKeyCell (s : ObjStore) (r : Nat) (k : Key) : ObjStore :=
  { s with keyCells := s.keyCells.set r k }

/-- Mutating a range object in place. -/
def writeRangeCell (s : ObjStore) (r : Nat) (rg : AnimationRange) : ObjStore :=
  { s with rangeCells := s.rangeCells.set r rg }

/-- The keys a track observes through its references. -/
def observedKeys (s : ObjStore) (a : RefAnimation) : List (Option Key) :=
  a.keyRefs.map (fun r => s.keyCells.get? r)

/-- The ranges a track observes through its entries (name, then `none` for
a tombstone or a dangling reference). -/
def observedRanges (s : ObjStore) (a : RefAnimation) : List (String × Option AnimationRange) :=
  a.rangeEntries.map (fun e => (e.1, e.2.bind (fun r => s.rangeCells.get? r)))

/-- The range-copying loop of `clone()`: tombstones are skipped
(`if (!range) continue`), and each live range gets a new cell holding a
copy (`range.clone()`).  Returns the grown heap and the new entries. -/
def cloneRanges (cells : List AnimationRange) :
    List (String × Option Nat) → List AnimationRange × List (String × Option Nat)
  | [] => (cells, [])
  | (_, none) :: rest => cloneRanges cells rest
  | (n, some r) :: rest =>
    match cells.get? r with
    | none => cloneRanges cells rest
    | some cell =>
      let res := cloneRanges (cells ++ [cell]) rest
      (res.1, (n, some cells.length) :: res.2)

/-- `clone()` at the reference level: `setKeys(this._keys)` copies the key
array with `slice(0)`, keeping the same key-object references; ranges are
cloned into fresh cells. -/
def cloneObj (s : ObjStore) (a : RefAnimation) : ObjStore × RefAnimation :=
  let rc := cloneRanges s.rangeCells a.rangeEntries
  ({ s with rangeCells := rc.1 }, { keyRefs := a.keyRefs, rangeEntries := rc.2 })

/-! ## Two-cursor worlds

Cursor isolation is a statement about which state an evaluation may touch;
it is made expressible by pairing two caller-owned cursors into a world and
running `_interpolate` against a selected one, exactly as the source does:
the cursor is caller-owned, and `_interpolate` receives only the one passed
in. -/

/-- Two independent playback cursors over one track. -/
structure CursorPair where
  c1 : AState
  c2 : AState

/-- One evaluation step in a two-cursor world: `_interpolate` runs with the
selected cursor and its update is stored back; the other cursor is carried
along untouched. -/
def evalOn (cfg : AnimConfig) (a : Animation) (f : ℚ) (w : CursorPair)
    (useFirst : Bool) : Value × CursorPair :=
  if useFirst then
    let r := _interpolate cfg a f w.c1
    (r.1, { w with c1 := r.2 })
  else
    let r := _interpolate cfg a f w.c2
    (r.1, { w with c2 := r.2 })

/-! ## Serialization well-formedness

The shapes of track data that the positional `serialize`/`Parse` pair
round-trips exactly (see the round-trip theorem and its counterexample for
the combinations the source loses or mangles). -/

/-- A value has the shape of the given data type tag. -/
def shapeOK (dt : Nat) : Value → Bool
  | Value.float _ => dt = ANIMATIONTYPE_FLOAT
  | Value.vec2 _ _ => dt = ANIMATIONTYPE_VECTOR2
  | Value.vec3 _ _ _ => dt = ANIMATIONTYPE_VECTOR3
  | Value.quat _ _ _ _ => dt = ANIMATIONTYPE_QUATERNION
  | Value.color3 _ _ _ => dt = ANIMATIONTYPE_COLOR3
  | Value.color4 _ _ _ _ => dt = ANIMATIONTYPE_COLOR4
  | Value.size _ _ => dt = ANIMATIONTYPE_SIZE
  | Value.matrix m => dt = ANIMATIONTYPE_MATRIX ∧ m.length = 16

/-- The data types whose serialized tangent slots survive parsing: the
quaternion parser expects flattened tangents (the serializer nests them)
and the matrix parser reads none at all. -/
def tangentSurvives (dt : Nat) : Bool :=
  dt ≠ ANIMATIONTYPE_QUATERNION ∧ dt ≠ ANIMATIONTYPE_MATRIX

/-- The data types whose serialized interpolation slot survives parsing:
the quaternion/matrix parsers look for it at flattened-layout offsets and
the color4 parser mangles it through `Color4.FromArray`. -/
def interpSurvives (dt : Nat) : Bool :=
  dt = ANIMATIONTYPE_FLOAT ∨ dt = ANIMATIONTYPE_VECTOR3 ∨ dt = ANIMATIONTYPE_COLOR3

/-- A key the `serialize`/`Parse` pair round-trips: well-shaped value and
tangents, tangents and `STEP` flags only on the types that keep them, and
not the combination (no in-tangent, an out-tangent, a flag) whose padding
the serializer emits at the slot the parser reads the flag from. -/
def serOKKey (dt : Nat) (k : Key) : Bool :=
  shapeOK dt k.value &&
  (match k.inTangent with
    | none => true
    | some t => shapeOK dt t && tangentSurvives dt) &&
  (match k.outTangent with
    | none => true
    | some t => shapeOK dt t && tangentSurvives dt) &&
  (match k.interpolation with
    | none => true
    | some q => decide (q = AnimationKeyInterpolation_STEP) && interpSurvives dt) &&
  !(k.inTangent.isNone && k.outTangent.isSome && k.interpolation.isSome)

/-! ## Concrete example tracks -/

/-- A bare float track with the given keys. -/
def mkFloatTrack (keys : List Key) : Animation :=
  (mkAnimation "track" "prop" 30 ANIMATIONTYPE_FLOAT none none).setKeys keys

/-- A float track `[(0, 1), (10, 3)]` with the constant easing function
`ease(g) = 1`. -/
def easedTrack : Animation :=
  (mkFloatTrack [mkKey 0 (Value.float 1), mkKey 10 (Value.float 3)]).setEasingFunction
    (some (fun _ => 1))

/-- A float track `[(0, 1, STEP), (10, 2), (20, 5)]`. -/
def stepTrack3 : Animation :=
  mkFloatTrack [⟨0, Value.float 1, none, none, some 1⟩, mkKey 10 (Value.float 2),
    mkKey 20 (Value.float 5)]

/-- The step-hold example track `[(0, 1, STEP), (10, 2)]`. -/
def stepTrack2 : Animation :=
  mkFloatTrack [⟨0, Value.float 1, none, none, some 1⟩, mkKey 10 (Value.float 2)]

/-- A two-key quaternion track sitting at the identity quaternion. -/
def quatTrack : Animation :=
  (mkAnimation "track" "rotationQuaternion" 30 ANIMATIONTYPE_QUATERNION none none).setKeys
    [mkKey 0 (Value.quat 0 0 0 1), mkKey 10 (Value.quat 0 0 0 1)]

/-- A `RELATIVE` cursor with one repeat behind it and the offset
`(1, 0, 0, 0)`. -/
def relQuatCursor : AState :=
  ⟨0, 1, some ANIMATIONLOOPMODE_RELATIVE, none, some (Value.quat 1 0 0 0), none⟩

/-- A one-key float track. -/
def oneKeyTrack : Animation :=
  mkFloatTrack [mkKey 0 (Value.float 1)]

/-- A one-key quaternion track with an in-tangent, for the serialization
counterexample. -/
def quatTangentTrack : Animation :=
  (mkAnimation "track" "rotationQuaternion" 30 ANIMATIONTYPE_QUATERNION none none).setKeys
    [⟨0, Value.quat 0 0 0 1, some (Value.quat 1 0 0 0), none, none⟩]

/-- Keys at frames `[0, 5, 10, 15, 20]` with a range `(5, 15)`. -/
def rangeTrack : Animation :=
  ((mkFloatTrack [mkKey 0 (Value.float 0), mkKey 5 (Value.float 1),
    mkKey 10 (Value.float 2), mkKey 15 (Value.float 3),
    mkKey 20 (Value.float 4)]).createRange "walk" 5 15)

/-- A heap holding one key object, referenced by a source track. -/
def oneKeyStore : ObjStore :=
  { keyCells := [mkKey 0 (Value.float 1)], rangeCells := [] }

/-- The source track of the clone-aliasing counterexample: one key
reference, no ranges. -/
def oneKeyRefTrack : RefAnimation :=
  { keyRefs := [0], rangeEntries := [] }

/-- A plain two-key float track `[(0, 1), (10, 3)]` without easing. -/
def plainTrack : Animation :=
  mkFloatTrack [mkKey 0 (Value.float 1), mkKey 10 (Value.float 3)]

/-! ## Helper lemmas: the key walk -/

/-- A natural (in-range) index reads its frame. -/
theorem frameAt_natCast (keys : List Key) (n : Nat) (h : n < keys.length) :
    frameAt keys (n : ℤ) = some (keys.get ⟨n, h⟩).frame := by
  unfold frameAt
  rw [if_neg (by omega : ¬((n : ℤ) < 0))]
  rw [show ((n : ℤ)).toNat = n from by omega, List.get?_eq_get h]
  rfl

/-- The left-walk guard at an in-range natural index. -/
theorem ltFrameAt_natCast (keys : List Key) (f : ℚ) (n : Nat) (h : n < keys.length) :
    ltFrameAt keys f (n : ℤ) = decide (f < (keys.get ⟨n, h⟩).frame) := by
  unfold ltFrameAt
  rw [frameAt_natCast keys n h]

/-- The right-walk guard at an in-range natural index. -/
theorem geFrameAt_natCast (keys : List Key) (f : ℚ) (n : Nat) (h : n < keys.length) :
    geFrameAt keys f (n : ℤ) = decide (f ≥ (keys.get ⟨n, h⟩).frame) := by
  unfold geFrameAt
  rw [frameAt_natCast keys n h]

/-- The left walk never moves a negative index. -/
theorem walkLeftGo_neg (keys : List Key) (f : ℚ) (key : ℤ) (h : key < 0) :
    ∀ fuel, walkLeftGo keys f fuel key = key := by
  intro fuel
  cases fuel with
  | zero => rfl
  | succ n =>
    simp only [walkLeftGo]
    rw [if_neg (by simp [not_le.mpr h])]

/-- The left walk stays put when its guard fails. -/
theorem walkLeftGo_stay (keys : List Key) (f : ℚ) (key : ℤ)
    (h : ltFrameAt keys f key = false) :
    ∀ fuel, walkLeftGo keys f fuel key = key := by
  intro fuel
  cases fuel with
  | zero => rfl
  | succ n =>
    simp only [walkLeftGo]
    rw [if_neg (by simp [h])]

/-- When the query frame is below every frame at positions `0..n`, the left
walk started at `n` runs off the front and stops at `-1`.  The fuel `n + 1`
(what `walkLeft` passes) is exactly enough. -/
theorem walkLeftGo_to_neg (keys : List Key) (f : ℚ) :
    ∀ (n : Nat), n < keys.length →
      (∀ (i : Nat) (hi : i < keys.length), i ≤ n → f < (keys.get ⟨i, hi⟩).frame) →
      ∀ fuel, n + 1 ≤ fuel → walkLeftGo keys f fuel (n : ℤ) = -1 := by
  intro n
  induction n with
  | zero =>
    intro hn hall fuel hfuel
    cases fuel with
    | zero => omega
    | succ m =>
      simp only [walkLeftGo, Nat.cast_zero]
      have hguard : ltFrameAt keys f 0 = true := by
        rw [show (0 : ℤ) = ((0 : Nat) : ℤ) from rfl, ltFrameAt_natCast keys f 0 hn]
        exact decide_eq_true (hall 0 hn (le_refl 0))
      rw [if_pos ⟨by omega, hguard⟩]
      exact walkLeftGo_neg keys f (0 - 1) (by omega) m
  | succ n ih =>
    intro hn hall fuel hfuel
    cases fuel with
    | zero => omega
    | succ m =>
      simp only [walkLeftGo]
      have hguard : ltFrameAt keys f ((n + 1 : Nat) : ℤ) = true := by
        rw [ltFrameAt_natCast keys f (n + 1) hn]
        exact decide_eq_true (hall (n + 1) hn (le_refl _))
      rw [if_pos ⟨by omega, hguard⟩]
      rw [show ((n + 1 : Nat) : ℤ) - 1 = (n : ℤ) from by push_cast; ring]
      exact ih (by omega) (fun i hi hin => hall i hi (by omega)) m (by omega)

/-- A left walk started at an in-range natural index `n` with the walked
frames above the query frame descends exactly to `i`, where the guard
fails.  The fuel needs to cover the `n - i` steps. -/
theorem walkLeftGo_descend_to (keys : List Key) (f : ℚ) (i : Nat)
    (hi : i < keys.length) (hstop : (keys.get ⟨i, hi⟩).frame ≤ f)
    (habove : ∀ (j : Nat) (hj : j < keys.length), i < j → f < (keys.get ⟨j, hj⟩).frame) :
    ∀ (n : Nat), i ≤ n → n < keys.length → ∀ fuel, n - i ≤ fuel →
      walkLeftGo keys f fuel (n : ℤ) = (i : ℤ) := by
  intro n
  induction n with
  | zero =>
    intro hin _ fuel _
    have : i = 0 := by omega
    subst this
    apply walkLeftGo_stay
    rw [ltFrameAt_natCast keys f 0 hi]
    exact decide_eq_false (not_lt.mpr hstop)
  | succ n ih =>
    intro hin hn fuel hfuel
    by_cases hieq : i = n + 1
    · subst hieq
      apply walkLeftGo_stay
      rw [ltFrameAt_natCast keys f (n + 1) hi]
      exact decide_eq_false (not_lt.mpr hstop)
    · cases fuel with
      | zero => omega
      | succ m =>
        simp only [walkLeftGo]
        have hguard : ltFrameAt keys f ((n + 1 : Nat) : ℤ) = true := by
          rw [ltFrameAt_natCast keys f (n + 1) hn]
          exact decide_eq_true (habove (n + 1) hn (by omega))
        rw [if_pos ⟨by omega, hguard⟩]
        rw [show ((n + 1 : Nat) : ℤ) - 1 = (n : ℤ) from by push_cast; ring]
        exact ih (by omega) (by omega) m (by omega)

/-- The right walk stays put when its guard fails. -/
theorem walkRightGo_stay (keys : List Key) (f : ℚ) (key : ℤ)
    (h : key + 1 ≤ (keys.length : ℤ) - 1 → geFrameAt keys f (key + 1) = false) :
    ∀ fuel, walkRightGo keys f fuel key = key := by
  intro fuel
  cases fuel with
  | zero => rfl
  | succ n =>
    simp only [walkRightGo]
    rw [if_neg (by
      rintro ⟨hb, hg⟩
      rw [h hb] at hg
      exact Bool.false_ne_true hg)]

/-- The right walk climbs to `i` when every frame in `(key, i]` is at most
the query frame and the frame at `i + 1` (when it exists) is above it. -/
theorem walkRightGo_climb_to (keys : List Key) (f : ℚ) (i : Nat) (hi : i < keys.length)
    (hstop : ∀ (hj : i + 1 < keys.length), f < (keys.get ⟨i + 1, hj⟩).frame) :
    ∀ (fuel : Nat) (key : ℤ), -1 ≤ key → key ≤ (i : ℤ) →
      (∀ (j : Nat) (hj : j < keys.length), key < (j : ℤ) → j ≤ i →
        (keys.get ⟨j, hj⟩).frame ≤ f) →
      (i : ℤ) - key ≤ fuel → walkRightGo keys f fuel key = i := by
  intro fuel
  induction fuel with
  | zero =>
    intro key _ h2 _ hfuel
    have : key = (i : ℤ) := by omega
    subst this
    rfl
  | succ m ih =>
    intro key h1 h2 hup hfuel
    by_cases hki : key = (i : ℤ)
    · subst hki
      apply walkRightGo_stay
      intro hb
      have hi1 : i + 1 < keys.length := by omega
      rw [show (i : ℤ) + 1 = ((i + 1 : Nat) : ℤ) from by push_cast; ring,
        geFrameAt_natCast keys f (i + 1) hi1]
      exact decide_eq_false (not_le.mpr (hstop hi1))
    · have hklt : key < (i : ℤ) := lt_of_le_of_ne h2 hki
      simp only [walkRightGo]
      have hj1 : 0 ≤ key + 1 := by omega
      set j : Nat := (key + 1).toNat with hj
      have hjcast : (j : ℤ) = key + 1 := Int.toNat_of_nonneg hj1
      have hjlen : j < keys.length := by omega
      have hguard : geFrameAt keys f (key + 1) = true := by
        rw [← hjcast, geFrameAt_natCast keys f j hjlen]
        exact decide_eq_true (hup j hjlen (by omega) (by omega))
      rw [if_pos ⟨by omega, hguard⟩]
      rw [show key + 1 = (j : ℤ) from hjcast.symm]
      exact ih (j : ℤ) (by omega) (by omega)
        (fun j' hj' hlt hle => hup j' hj' (by omega) hle) (by omega)

/-- Resolution below the key span: for a non-empty, non-decreasing track
and a valid cached index, a query frame strictly before the first key
resolves to `-1`. -/
theorem resolve_low (keys : List Key) (f : ℚ) (h1 : keys ≠ [])
    (hsort : keys.Pairwise (fun x y => x.frame ≤ y.frame))
    (hint : ℤ) (hk0 : 0 ≤ hint) (hk1 : hint ≤ (keys.length : ℤ) - 1)
    (hf : f < (keys.get ⟨0, List.length_pos.mpr h1⟩).frame) :
    walkRight keys f (walkLeft keys f hint) = -1 := by
  have hlen : 0 < keys.length := List.length_pos.mpr h1
  have hfall : ∀ (i : Nat) (hi : i < keys.length), f < (keys.get ⟨i, hi⟩).frame := by
    intro i hi
    rcases Nat.eq_zero_or_pos i with h0 | hpos
    · subst h0; exact hf
    · exact lt_of_lt_of_le hf
        ((List.pairwise_iff_get.mp hsort) ⟨0, hlen⟩ ⟨i, hi⟩ hpos)
  set n : Nat := hint.toNat with hn
  have hcast : (n : ℤ) = hint := Int.toNat_of_nonneg hk0
  have hwl : walkLeft keys f hint = -1 := by
    rw [walkLeft, ← hcast]
    exact walkLeftGo_to_neg keys f n (by omega)
      (fun i hi _ => hfall i hi) _ (by omega)
  rw [hwl, walkRight]
  apply walkRightGo_stay
  intro _
  rw [show (-1 : ℤ) + 1 = ((0 : Nat) : ℤ) from by norm_num,
    geFrameAt_natCast keys f 0 hlen]
  exact decide_eq_false (not_le.mpr (hfall 0 hlen))

/-- Resolution above the key span: for a non-empty, non-decreasing track
and a valid cached index, a query frame at or after the last key resolves
to the last index. -/
theorem resolve_high (keys : List Key) (f : ℚ) (h1 : keys ≠ [])
    (hsort : keys.Pairwise (fun x y => x.frame ≤ y.frame))
    (hint : ℤ) (hk0 : 0 ≤ hint) (hk1 : hint ≤ (keys.length : ℤ) - 1)
    (hf : (keys.getLast h1).frame ≤ f) :
    walkRight keys f (walkLeft keys f hint) = (keys.length : ℤ) - 1 := by
  have hlen : 0 < keys.length := List.length_pos.mpr h1
  have hlast : keys.getLast h1 = keys.get ⟨keys.length - 1, by omega⟩ := by
    rw [List.getLast_eq_getElem]
    rfl
  have hfall : ∀ (i : Nat) (hi : i < keys.length), (keys.get ⟨i, hi⟩).frame ≤ f := by
    intro i hi
    rcases Nat.lt_or_ge i (keys.length - 1) with hlt | hge
    · refine le_trans ?_ (hlast ▸ hf)
      exact (List.pairwise_iff_get.mp hsort) ⟨i, hi⟩ ⟨keys.length - 1, by omega⟩ hlt
    · have : i = keys.length - 1 := by omega
      subst this
      exact hlast ▸ hf
  set n : Nat := hint.toNat with hn
  have hcast : (n : ℤ) = hint := Int.toNat_of_nonneg hk0
  have hwl : walkLeft keys f hint = hint := by
    rw [walkLeft]
    apply walkLeftGo_stay
    rw [← hcast, ltFrameAt_natCast keys f n (by omega)]
    exact decide_eq_false (not_lt.mpr (hfall n (by omega)))
  rw [hwl, walkRight]
  rw [show (keys.length : ℤ) - 1 = ((keys.length - 1 : Nat) : ℤ) from by
    push_cast [hlen]; omega]
  exact walkRightGo_climb_to keys f (keys.length - 1) (by omega)
    (fun hj => absurd hj (by omega)) _ hint (by omega) (by omega)
    (fun j hj _ _ => hfall j hj) (by omega)

/-- Interior resolution: for a non-decreasing track and a valid cached
index, a query frame bracketed by keys `i` and `i + 1` resolves to `i`. -/
theorem resolve_mid (keys : List Key) (f : ℚ)
    (hsort : keys.Pairwise (fun x y => x.frame ≤ y.frame))
    (hint : ℤ) (hk0 : 0 ≤ hint) (hk1 : hint ≤ (keys.length : ℤ) - 1)
    (i : Nat) (hi1 : i + 1 < keys.length)
    (hf1 : (keys.get ⟨i, by omega⟩).frame ≤ f)
    (hf2 : f < (keys.get ⟨i + 1, hi1⟩).frame) :
    walkRight keys f (walkLeft keys f hint) = (i : ℤ) := by
  have hsg := List.pairwise_iff_get.mp hsort
  have hbelow : ∀ (j : Nat) (hj : j < keys.length), j ≤ i →
      (keys.get ⟨j, hj⟩).frame ≤ f := by
    intro j hj hji
    rcases Nat.lt_or_ge j i with hlt | hge
    · exact le_trans (hsg ⟨j, hj⟩ ⟨i, by omega⟩ hlt) hf1
    · have : j = i := by omega
      subst this; exact hf1
  have habove : ∀ (j : Nat) (hj : j < keys.length), i < j →
      f < (keys.get ⟨j, hj⟩).frame := by
    intro j hj hij
    rcases Nat.lt_or_ge (i + 1) j with hlt | hge
    · exact lt_of_lt_of_le hf2 (hsg ⟨i + 1, hi1⟩ ⟨j, hj⟩ hlt)
    · have : j = i + 1 := by omega
      subst this; exact hf2
  set n : Nat := hint.toNat with hn
  have hcast : (n : ℤ) = hint := Int.toNat_of_nonneg hk0
  have hclimb : walkRightGo keys f keys.length (i : ℤ) = (i : ℤ) := by
    apply walkRightGo_stay
    intro hb
    rw [show (i : ℤ) + 1 = ((i + 1 : Nat) : ℤ) from by push_cast; ring,
      geFrameAt_natCast keys f (i + 1) hi1]
    exact decide_eq_false (not_le.mpr hf2)
  rcases le_or_lt n i with hni | hni
  · -- cached index at or below `i`: the left walk stays, the right walk climbs
    have hwl : walkLeft keys f hint = hint := by
      rw [walkLeft]
      apply walkLeftGo_stay
      rw [← hcast, ltFrameAt_natCast keys f n (by omega)]
      exact decide_eq_false (not_lt.mpr (hbelow n (by omega) hni))
    rw [hwl, walkRight]
    exact walkRightGo_climb_to keys f i (by omega)
      (fun hj => habove (i + 1) hj (by omega)) _ hint (by omega) (by omega)
      (fun j hj hlt hle => hbelow j hj hle) (by omega)
  · -- cached index above `i`: the left walk descends exactly to `i`
    have hwl : walkLeft keys f hint = (i : ℤ) := by
      rw [walkLeft, ← hcast]
      exact walkLeftGo_descend_to keys f i (by omega) hf1 habove n (by omega)
        (by omega) _ (by omega)
    rw [hwl, walkRight]
    exact hclimb

/-- An in-range natural index reads its key. -/
theorem keyAtD_natCast (keys : List Key) (n : Nat) (h : n < keys.length) :
    keyAtD keys (n : ℤ) = keys.get ⟨n, h⟩ := by
  unfold keyAtD
  rw [if_neg (by omega : ¬((n : ℤ) < 0))]
  rw [show ((n : ℤ)).toNat = n from by omega, List.get?_eq_get h]
  rfl

/-- The lower clamp of `_interpolate`: on a non-empty, non-decreasing track
with a valid cached index and no short-circuit, a query frame strictly
before the first key returns the first key's value unchanged. -/
theorem interp_clamp_low (cfg : AnimConfig) (a : Animation) (f : ℚ) (state : AState)
    (h1 : a.keys ≠ []) (hsort : a.keys.Pairwise (fun x y => x.frame ≤ y.frame))
    (hk0 : 0 ≤ state.key) (hk1 : state.key ≤ (a.keys.length : ℤ) - 1)
    (hcc : ¬(state.loopMode = some ANIMATIONLOOPMODE_CONSTANT ∧ state.repeatCount > 0))
    (hf : f < (a.keys.head h1).frame) :
    (_interpolate cfg a f state).1 = (a.keys.head h1).value := by
  have hlen : 0 < a.keys.length := List.length_pos.mpr h1
  have hhead : a.keys.head h1 = a.keys.get ⟨0, hlen⟩ := by
    rw [List.head_eq_getElem]
    rfl
  unfold _interpolate
  rw [if_neg hcc]
  rw [resolve_low a.keys f h1 hsort state.key hk0 hk1 (hhead ▸ hf)]
  have hstep : interpolateAtKey cfg a f state (-1) =
      ((keyAtD a.keys 0).value, { state with key := -1 }) := rfl
  rw [hstep]
  rw [show (0 : ℤ) = ((0 : Nat) : ℤ) from rfl, keyAtD_natCast a.keys 0 hlen, hhead]

/-- The upper clamp of `_interpolate`: on a non-empty, non-decreasing track
with a valid cached index and no short-circuit, a query frame at or after
the last key returns the last key's value unchanged. -/
theorem interp_clamp_high (cfg : AnimConfig) (a : Animation) (f : ℚ) (state : AState)
    (h1 : a.keys ≠ []) (hsort : a.keys.Pairwise (fun x y => x.frame ≤ y.frame))
    (hk0 : 0 ≤ state.key) (hk1 : state.key ≤ (a.keys.length : ℤ) - 1)
    (hcc : ¬(state.loopMode = some ANIMATIONLOOPMODE_CONSTANT ∧ state.repeatCount > 0))
    (hf : (a.keys.getLast h1).frame ≤ f) :
    (_interpolate cfg a f state).1 = (a.keys.getLast h1).value := by
  have hlen : 0 < a.keys.length := List.length_pos.mpr h1
  have hlast : a.keys.getLast h1 = a.keys.get ⟨a.keys.length - 1, by omega⟩ := by
    rw [List.getLast_eq_getElem]
    rfl
  unfold _interpolate
  rw [if_neg hcc]
  rw [resolve_high a.keys f h1 hsort state.key hk0 hk1 hf]
  have hneg : ¬((a.keys.length : ℤ) - 1 < 0) := by omega
  have hpos : (a.keys.length : ℤ) - 1 + 1 > (a.keys.length : ℤ) - 1 := by omega
  simp only [interpolateAtKey]
  rw [if_neg hneg, if_pos hpos]
  rw [show ((a.keys.length : ℤ) - 1) = ((a.keys.length - 1 : Nat) : ℤ) from by omega]
  rw [keyAtD_natCast a.keys (a.keys.length - 1) (by omega), hlast]

/-- C1 (amended).
For every track with at least one key whose key frames are non-decreasing
(the caller contract of the key store), every evaluation cursor with a
valid cached index and no `CONSTANT`-with-repeats short-circuit, and every
frame `f`: if `f` is strictly before the first key's frame, both
`_interpolate` (under any loop mode) and `evaluate` return the first key's
value unchanged, and if `f` is at or after the last key's frame they return
the last key's value unchanged — no extrapolation past the key span.
(The original claim's "at or before the first key's frame" fails exactly at
`f = firstKey.frame`, where evaluation runs the interpolation path through
the easing hook — see the counterexample.) -/
theorem C1_boundary_clamp (cfg : AnimConfig) (a : Animation) (h1 : a.keys ≠ [])
    (hsort : a.keys.Pairwise (fun x y => x.frame ≤ y.frame)) (f : ℚ) (state : AState)
    (hk0 : 0 ≤ state.key) (hk1 : state.key ≤ (a.keys.length : ℤ) - 1)
    (hcc : ¬(state.loopMode = some ANIMATIONLOOPMODE_CONSTANT ∧ state.repeatCount > 0)) :
    (f < (a.keys.head h1).frame →
      (_interpolate cfg a f state).1 = (a.keys.head h1).value ∧
      Animation.evaluate cfg a f = (a.keys.head h1).value) ∧
    ((a.keys.getLast h1).frame ≤ f →
      (_interpolate cfg a f state).1 = (a.keys.getLast h1).value ∧
      Animation.evaluate cfg a f = (a.keys.getLast h1).value) := by
  have hlen : 0 < a.keys.length := List.length_pos.mpr h1
  constructor
  · intro hf
    refine ⟨interp_clamp_low cfg a f state h1 hsort hk0 hk1 hcc hf, ?_⟩
    exact interp_clamp_low cfg a f (mkAState 0 0 ANIMATIONLOOPMODE_CONSTANT) h1 hsort
      (by simp [mkAState]) (by simp [mkAState]; omega) (by simp [mkAState]) hf
  · intro hf
    refine ⟨interp_clamp_high cfg a f state h1 hsort hk0 hk1 hcc hf, ?_⟩
    exact interp_clamp_high cfg a f (mkAState 0 0 ANIMATIONLOOPMODE_CONSTANT) h1 hsort
      (by simp [mkAState]) (by simp [mkAState]; omega) (by simp [mkAState]) hf

/-- Witness for C1: on the plain two-key float track `[(0, 1), (10, 3)]`,
evaluation at `-1` returns the first key's value and at `12` the last
key's. -/
theorem C1_boundary_clamp_witness :
    Animation.evaluate defaultConfig plainTrack (-1) = Value.float 1 ∧
    Animation.evaluate defaultConfig plainTrack 12 = Value.float 3 := by
  have h1 : plainTrack.keys ≠ [] := by decide
  have hh : (plainTrack.keys.head h1).value = Value.float 1 ∧
      (plainTrack.keys.head h1).frame = 0 := by
    simp [plainTrack, mkFloatTrack, Animation.setKeys, mkAnimation, mkKey]
  have hl : (plainTrack.keys.getLast h1).value = Value.float 3 ∧
      (plainTrack.keys.getLast h1).frame = 10 := by
    simp [plainTrack, mkFloatTrack, Animation.setKeys, mkAnimation, mkKey, List.getLast]
  constructor
  · have h := ((C1_boundary_clamp defaultConfig plainTrack h1 (by decide) (-1)
      (mkAState 0 0 ANIMATIONLOOPMODE_CONSTANT) (by decide) (by decide)
      (by decide)).1 (by rw [hh.2]; norm_num)).2
    exact h.trans hh.1
  · have h := ((C1_boundary_clamp defaultConfig plainTrack h1 (by decide) 12
      (mkAState 0 0 ANIMATIONLOOPMODE_CONSTANT) (by decide) (by decide)
      (by decide)).2 (by rw [hl.2]; norm_num)).2
    exact h.trans hl.1

/-- Counterexample to C1 as stated: on the float track `[(0, 1), (10, 3)]`
with the constant easing function `ease(g) = 1`, the query frame `0` is at
(hence at-or-before) the first key's frame, yet `evaluate(0)` returns `3`,
not the first key's value `1` — the boundary frame runs the interpolation
path through the easing hook. -/
theorem C1_counterexample :
    (easedTrack.keys.headD defaultKey).frame = 0 ∧
    (easedTrack.keys.headD defaultKey).value = Value.float 1 ∧
    Animation.evaluate defaultConfig easedTrack 0 = Value.float 3 := by
  refine ⟨by decide, by decide, ?_⟩
  have hres : walkRight easedTrack.keys 0 (walkLeft easedTrack.keys 0 0) = 0 := by decide
  show (_interpolate defaultConfig easedTrack 0 (mkAState 0 0 ANIMATIONLOOPMODE_CONSTANT)).1 =
    Value.float 3
  rw [_interpolate, if_neg (by decide), mkAState, hres]
  rw [show interpolateAtKey defaultConfig easedTrack 0
      ⟨0, 0, some ANIMATIONLOOPMODE_CONSTANT, none, none, none⟩ 0 =
      (loopSwitch (some ANIMATIONLOOPMODE_CONSTANT)
        (vlerp (Value.float 1) (Value.float 3) 1)
        (Value.add ((Value.float 0).scale 0) (vlerp (Value.float 1) (Value.float 3) 1))
        (Value.float 0),
       ⟨0, 0, some ANIMATIONLOOPMODE_CONSTANT, none, none, none⟩) from rfl]
  rw [show loopSwitch (some ANIMATIONLOOPMODE_CONSTANT)
      (vlerp (Value.float 1) (Value.float 3) 1)
      (Value.add ((Value.float 0).scale 0) (vlerp (Value.float 1) (Value.float 3) 1))
      (Value.float 0) = vlerp (Value.float 1) (Value.float 3) 1 from by
    rw [loopSwitch, if_pos (by decide)]]
  rw [vlerp, qlerp]
  norm_num

/-- The step hold of `_interpolate`: when the resolved segment's left key
carries the `STEP` flag and the query frame is bracketed by the segment,
the left key's value is returned (the walk guarantees
`frame < endKey.frame`, so the snap-to-end branch of the `STEP` check is
unreachable on the resolved segment). -/
theorem interp_step_hold (cfg : AnimConfig) (a : Animation) (f : ℚ) (state : AState)
    (hsort : a.keys.Pairwise (fun x y => x.frame ≤ y.frame))
    (hk0 : 0 ≤ state.key) (hk1 : state.key ≤ (a.keys.length : ℤ) - 1)
    (hcc : ¬(state.loopMode = some ANIMATIONLOOPMODE_CONSTANT ∧ state.repeatCount > 0))
    (i : Nat) (hi1 : i + 1 < a.keys.length)
    (hstep : (a.keys.get ⟨i, by omega⟩).interpolation = some AnimationKeyInterpolation_STEP)
    (hf1 : (a.keys.get ⟨i, by omega⟩).frame ≤ f)
    (hf2 : f < (a.keys.get ⟨i + 1, hi1⟩).frame) :
    (_interpolate cfg a f state).1 = (a.keys.get ⟨i, by omega⟩).value := by
  unfold _interpolate
  rw [if_neg hcc]
  rw [resolve_mid a.keys f hsort state.key hk0 hk1 i hi1 hf1 hf2]
  have hneg : ¬((i : ℤ) < 0) := by omega
  have hnot2 : ¬((i : ℤ) + 1 > (a.keys.length : ℤ) - 1) := by omega
  simp only [interpolateAtKey]
  rw [if_neg hneg, if_neg hnot2]
  rw [keyAtD_natCast a.keys i (by omega)]
  rw [show (i : ℤ) + 1 = ((i + 1 : Nat) : ℤ) from by push_cast; ring]
  rw [keyAtD_natCast a.keys (i + 1) hi1]
  rw [if_pos hstep, if_pos hf2]

/-- C2 (amended).
For every track with non-decreasing key frames, every valid cursor, and
every adjacent key pair `(k_i, k_{i+1})` whose left key carries the `STEP`
flag: evaluation returns the left key's value for every frame in
`[k_i.frame, k_{i+1}.frame)`, and when the right key is the track's last
key, evaluation at and after its frame returns the right key's value.
(The original claim's unrestricted "the right key's value at and after the
right key's frame" fails as soon as a further key exists — frames past the
right key resolve to the next segment; see the counterexample.) -/
theorem C2_step_hold (cfg : AnimConfig) (a : Animation)
    (hsort : a.keys.Pairwise (fun x y => x.frame ≤ y.frame))
    (f : ℚ) (state : AState)
    (hk0 : 0 ≤ state.key) (hk1 : state.key ≤ (a.keys.length : ℤ) - 1)
    (hcc : ¬(state.loopMode = some ANIMATIONLOOPMODE_CONSTANT ∧ state.repeatCount > 0))
    (i : Nat) (hi1 : i + 1 < a.keys.length)
    (hstep : (a.keys.get ⟨i, by omega⟩).interpolation = some AnimationKeyInterpolation_STEP) :
    ((a.keys.get ⟨i, by omega⟩).frame ≤ f → f < (a.keys.get ⟨i + 1, hi1⟩).frame →
      (_interpolate cfg a f state).1 = (a.keys.get ⟨i, by omega⟩).value ∧
      Animation.evaluate cfg a f = (a.keys.get ⟨i, by omega⟩).value) ∧
    (i + 1 = a.keys.length - 1 → (a.keys.get ⟨i + 1, hi1⟩).frame ≤ f →
      Animation.evaluate cfg a f = (a.keys.get ⟨i + 1, hi1⟩).value) := by
  have h1 : a.keys ≠ [] := by
    intro h
    rw [h] at hi1
    simp at hi1
  constructor
  · intro hf1 hf2
    refine ⟨interp_step_hold cfg a f state hsort hk0 hk1 hcc i hi1 hstep hf1 hf2, ?_⟩
    exact interp_step_hold cfg a f (mkAState 0 0 ANIMATIONLOOPMODE_CONSTANT) hsort
      (by simp [mkAState]) (by simp [mkAState]; omega) (by simp [mkAState]) i hi1 hstep hf1 hf2
  · intro hlast hf
    have hgl : a.keys.getLast h1 = a.keys.get ⟨i + 1, hi1⟩ := by
      rw [List.getLast_eq_getElem]
      have : a.keys.length - 1 = i + 1 := hlast.symm
      simp only [this]
      rfl
    have h := interp_clamp_high cfg a f (mkAState 0 0 ANIMATIONLOOPMODE_CONSTANT) h1 hsort
      (by simp [mkAState]) (by simp [mkAState]; omega) (by simp [mkAState]) (by rw [hgl]; exact hf)
    rw [hgl] at h
    exact h

/-- Witness for C2: the spec's own example — a `STEP` key at frame 0 with
value 1.0, next key at frame 10 with value 2.0: `evaluate(9) == 1.0` and
`evaluate(10) == 2.0`. -/
theorem C2_step_hold_witness :
    Animation.evaluate defaultConfig stepTrack2 9 = Value.float 1 ∧
    Animation.evaluate defaultConfig stepTrack2 10 = Value.float 2 := by
  have h := C2_step_hold defaultConfig stepTrack2 (by decide) 9
    (mkAState 0 0 ANIMATIONLOOPMODE_CONSTANT) (by decide) (by decide) (by decide)
    0 (by decide) (by decide)
  have h10 := C2_step_hold defaultConfig stepTrack2 (by decide) 10
    (mkAState 0 0 ANIMATIONLOOPMODE_CONSTANT) (by decide) (by decide) (by decide)
    0 (by decide) (by decide)
  constructor
  · have hv := (h.1 (by decide) (by decide)).2
    exact hv.trans (by decide)
  · have hv := h10.2 (by decide) (by decide)
    exact hv.trans (by decide)

/-- Counterexample to C2 as stated: on the track
`[(0, 1, STEP), (10, 2), (20, 5)]`, frame 15 lies after the `STEP`
segment's right key frame 10, yet evaluation returns `3.5` (the linear
blend of the next segment), not the right key's value `2`. -/
theorem C2_counterexample :
    (stepTrack3.keys.headD defaultKey).interpolation = some AnimationKeyInterpolation_STEP ∧
    (stepTrack3.keys.get? 1).map Key.frame = some 10 ∧
    (stepTrack3.keys.get? 1).map Key.value = some (Value.float 2) ∧
    Animation.evaluate defaultConfig stepTrack3 15 = Value.float (7 / 2) ∧
    Value.float (7 / 2) ≠ Value.float 2 := by
  refine ⟨by decide, by decide, by decide, ?_, by norm_num⟩
  have hres : walkRight stepTrack3.keys 15 (walkLeft stepTrack3.keys 15 0) = 1 := by decide
  show (_interpolate defaultConfig stepTrack3 15 (mkAState 0 0 ANIMATIONLOOPMODE_CONSTANT)).1 =
    Value.float (7 / 2)
  rw [_interpolate, if_neg (by decide), mkAState, hres]
  rw [show interpolateAtKey defaultConfig stepTrack3 15
      ⟨0, 0, some ANIMATIONLOOPMODE_CONSTANT, none, none, none⟩ 1 =
      (loopSwitch (some ANIMATIONLOOPMODE_CONSTANT)
        (vlerp (Value.float 2) (Value.float 5) ((15 - 10) / (20 - 10)))
        (Value.add ((Value.float 0).scale 0)
          (vlerp (Value.float 2) (Value.float 5) ((15 - 10) / (20 - 10))))
        (Value.float 0),
       ⟨1, 0, some ANIMATIONLOOPMODE_CONSTANT, none, none, none⟩) from rfl]
  rw [show loopSwitch (some ANIMATIONLOOPMODE_CONSTANT)
      (vlerp (Value.float 2) (Value.float 5) ((15 - 10) / (20 - 10)))
      (Value.add ((Value.float 0).scale 0)
        (vlerp (Value.float 2) (Value.float 5) ((15 - 10) / (20 - 10))))
      (Value.float 0) = vlerp (Value.float 2) (Value.float 5) ((15 - 10) / (20 - 10)) from by
    rw [loopSwitch, if_pos (by decide)]]
  rw [vlerp, qlerp]
  norm_num


/-- `loopSwitch` under `RELATIVE` picks the relative variant. -/
theorem loopSwitch_relative (v relv d : Value) :
    loopSwitch (some ANIMATIONLOOPMODE_RELATIVE) v relv d = relv := by
  rw [loopSwitch, if_neg (by decide), if_pos rfl]

/-- `loopSwitch` under `CYCLE` picks the interpolated value. -/
theorem loopSwitch_cycle (v relv d : Value) :
    loopSwitch (some ANIMATIONLOOPMODE_CYCLE) v relv d = v := by
  rw [loopSwitch, if_pos (Or.inl rfl)]

/-- A float-typed value is a `Value.float`. -/
theorem shapeOK_float {v : Value} (h : shapeOK ANIMATIONTYPE_FLOAT v = true) :
    ∃ x, v = Value.float x := by
  cases v
  case float x => exact ⟨x, rfl⟩
  all_goals simp +decide [shapeOK, ANIMATIONTYPE_FLOAT, ANIMATIONTYPE_VECTOR2,
    ANIMATIONTYPE_VECTOR3, ANIMATIONTYPE_QUATERNION, ANIMATIONTYPE_COLOR3,
    ANIMATIONTYPE_COLOR4, ANIMATIONTYPE_SIZE, ANIMATIONTYPE_MATRIX] at h

/-- Linear interpolation from a float stays a float, whatever the other
operand's shape. -/
theorem vlerp_float (x : ℚ) (e : Value) (g : ℚ) :
    ∃ y, vlerp (Value.float x) e g = Value.float y := by
  cases e <;> exact ⟨_, rfl⟩

/-- Hermite interpolation from a float stays a float, whatever the other
operands' shapes. -/
theorem vhermite_float (x : ℚ) (t1 e t2 : Value) (g : ℚ) :
    ∃ y, vhermite (Value.float x) t1 e t2 g = Value.float y := by
  cases t1 <;> cases e <;> cases t2 <;> exact ⟨_, rfl⟩

/-- Scaling a float value. -/
theorem value_scale_float (q r : ℚ) : (Value.float q).scale r = Value.float (q * r) := rfl

/-- Component-wise addition of floats commutes. -/
theorem value_add_float_comm (x y : ℚ) :
    Value.add (Value.float x) (Value.float y) = Value.add (Value.float y) (Value.float x) := by
  simp only [Value.add]
  exact congrArg Value.float (add_comm x y)

/-- The `RELATIVE` postprocessing relation of the per-type switch: for every
non-matrix data type, the `RELATIVE` result equals the `CYCLE` result (the
interpolated value) plus the offset scaled by the repeat count,
component-wise — including the quaternion branch, whose `addInPlace` is
the same component-wise addition. -/
theorem typeSwitch_relative (cfg : AnimConfig) (a : Animation) (state : AState)
    (sk ek : Key) (g : ℚ)
    (hlm : state.loopMode = some ANIMATIONLOOPMODE_RELATIVE)
    (o : Value) (hoff : state.offsetValue = some o)
    (hshape : shapeOK a.dataType sk.value = true)
    (hoshape : shapeOK a.dataType o = true)
    (hdt : a.dataType = ANIMATIONTYPE_FLOAT ∨ a.dataType = ANIMATIONTYPE_QUATERNION ∨
      a.dataType = ANIMATIONTYPE_VECTOR3 ∨ a.dataType = ANIMATIONTYPE_VECTOR2 ∨
      a.dataType = ANIMATIONTYPE_SIZE ∨ a.dataType = ANIMATIONTYPE_COLOR3 ∨
      a.dataType = ANIMATIONTYPE_COLOR4) :
    (typeSwitch cfg a state sk ek g).1 =
      Value.add
        (typeSwitch cfg a { state with loopMode := some ANIMATIONLOOPMODE_CYCLE } sk ek g).1
        (o.scale (state.repeatCount : ℚ)) := by
  rcases hdt with hdt | hdt | hdt | hdt | hdt | hdt | hdt
  case inl =>
    obtain ⟨x, hx⟩ := shapeOK_float (hdt ▸ hshape)
    obtain ⟨q, hq⟩ := shapeOK_float (hdt ▸ hoshape)
    simp only [typeSwitch, hdt, if_pos, hlm, hoff, Option.getD_some, loopSwitch_relative,
      loopSwitch_cycle, hq, hx]
    set r : ℚ := (state.repeatCount : ℚ)
    simp only [value_scale_float]
    split
    · obtain ⟨y, hy⟩ := vhermite_float x ((sk.outTangent.getD (Value.float 0)).scale
        (ek.frame - sk.frame)) ek.value ((ek.inTangent.getD (Value.float 0)).scale
        (ek.frame - sk.frame)) g
      rw [hy]
      exact value_add_float_comm _ _
    · obtain ⟨y, hy⟩ := vlerp_float x ek.value g
      rw [hy]
      exact value_add_float_comm _ _
  all_goals
    simp +decide only [typeSwitch, hdt, ANIMATIONTYPE_FLOAT, ANIMATIONTYPE_QUATERNION,
      ANIMATIONTYPE_VECTOR3, ANIMATIONTYPE_VECTOR2, ANIMATIONTYPE_SIZE, ANIMATIONTYPE_COLOR3,
      ANIMATIONTYPE_COLOR4, ANIMATIONTYPE_MATRIX, hlm, hoff, Option.getD_some,
      loopSwitch_relative, loopSwitch_cycle, if_true, if_false]

/-- The matrix branch under `RELATIVE` returns the raw start key value,
with no relative adjustment. -/
theorem typeSwitch_matrix_relative (cfg : AnimConfig) (a : Animation) (state : AState)
    (sk ek : Key) (g : ℚ) (hdt : a.dataType = ANIMATIONTYPE_MATRIX)
    (hlm : state.loopMode = some ANIMATIONLOOPMODE_RELATIVE) :
    (typeSwitch cfg a state sk ek g).1 = sk.value := by
  simp +decide only [typeSwitch, hdt, ANIMATIONTYPE_FLOAT, ANIMATIONTYPE_QUATERNION,
    ANIMATIONTYPE_VECTOR3, ANIMATIONTYPE_VECTOR2, ANIMATIONTYPE_SIZE, ANIMATIONTYPE_COLOR3,
    ANIMATIONTYPE_COLOR4, ANIMATIONTYPE_MATRIX, hlm, ANIMATIONLOOPMODE_RELATIVE,
    ANIMATIONLOOPMODE_CYCLE, ANIMATIONLOOPMODE_CONSTANT, ANIMATIONLOOPMODE_YOYO,
    if_true, if_false]

/-- C3 (amended).
In `_interpolate` under loop mode `RELATIVE`, for every cursor with
`offsetValue` set and a valid cached index, and every frame resolving
strictly inside the key span to a non-`STEP` segment with well-shaped
values: for the float, vector2, vector3, color3, color4, size *and
quaternion* data types the result equals the interpolated value (the same
run under `CYCLE`) plus `offsetValue` scaled by `repeatCount`, combined
component-wise — the quaternion case uses the component-wise `addInPlace`,
not quaternion multiplication (see the counterexample); a matrix result is
the raw start key value with no relative adjustment applied. -/
theorem C3_relative_offset (cfg : AnimConfig) (a : Animation)
    (hsort : a.keys.Pairwise (fun x y => x.frame ≤ y.frame))
    (f : ℚ) (state : AState)
    (hk0 : 0 ≤ state.key) (hk1 : state.key ≤ (a.keys.length : ℤ) - 1)
    (hlm : state.loopMode = some ANIMATIONLOOPMODE_RELATIVE)
    (o : Value) (hoff : state.offsetValue = some o)
    (i : Nat) (hi1 : i + 1 < a.keys.length)
    (hnostep : ¬((a.keys.get ⟨i, by omega⟩).interpolation = some AnimationKeyInterpolation_STEP))
    (hf1 : (a.keys.get ⟨i, by omega⟩).frame ≤ f)
    (hf2 : f < (a.keys.get ⟨i + 1, hi1⟩).frame)
    (hshape : shapeOK a.dataType (a.keys.get ⟨i, by omega⟩).value = true)
    (hoshape : shapeOK a.dataType o = true) :
    ((a.dataType = ANIMATIONTYPE_FLOAT ∨ a.dataType = ANIMATIONTYPE_QUATERNION ∨
      a.dataType = ANIMATIONTYPE_VECTOR3 ∨ a.dataType = ANIMATIONTYPE_VECTOR2 ∨
      a.dataType = ANIMATIONTYPE_SIZE ∨ a.dataType = ANIMATIONTYPE_COLOR3 ∨
      a.dataType = ANIMATIONTYPE_COLOR4) →
      (_interpolate cfg a f state).1 =
        Value.add
          (_interpolate cfg a f { state with loopMode := some ANIMATIONLOOPMODE_CYCLE }).1
          (o.scale (state.repeatCount : ℚ))) ∧
    (a.dataType = ANIMATIONTYPE_MATRIX →
      (_interpolate cfg a f state).1 = (a.keys.get ⟨i, by omega⟩).value) := by
  have hcc1 : ¬(state.loopMode = some ANIMATIONLOOPMODE_CONSTANT ∧ state.repeatCount > 0) := by
    rw [hlm]
    rintro ⟨h, -⟩
    exact absurd h (by decide)
  have hcc2 : ¬(({ state with loopMode := some ANIMATIONLOOPMODE_CYCLE } : AState).loopMode =
      some ANIMATIONLOOPMODE_CONSTANT ∧
      ({ state with loopMode := some ANIMATIONLOOPMODE_CYCLE } : AState).repeatCount > 0) := by
    rintro ⟨h, -⟩
    rw [show ({ state with loopMode := some ANIMATIONLOOPMODE_CYCLE } : AState).loopMode =
      some ANIMATIONLOOPMODE_CYCLE from rfl] at h
    exact absurd h (by decide)
  have hkey2 : ({ state with loopMode := some ANIMATIONLOOPMODE_CYCLE } : AState).key =
    state.key := rfl
  have hres := resolve_mid a.keys f hsort state.key hk0 hk1 i hi1 hf1 hf2
  have hneg : ¬((i : ℤ) < 0) := by omega
  have hnot2 : ¬((i : ℤ) + 1 > (a.keys.length : ℤ) - 1) := by omega
  constructor
  · intro hdt
    unfold _interpolate
    rw [if_neg hcc1, if_neg hcc2, hkey2, hres]
    simp only [interpolateAtKey]
    rw [if_neg hneg, if_neg hneg, if_neg hnot2, if_neg hnot2]
    rw [keyAtD_natCast a.keys i (by omega)]
    rw [if_neg hnostep, if_neg hnostep]
    exact typeSwitch_relative cfg a state _ _ _ hlm o hoff hshape hoshape hdt
  · intro hdt
    unfold _interpolate
    rw [if_neg hcc1, hres]
    simp only [interpolateAtKey]
    rw [if_neg hneg, if_neg hnot2]
    rw [keyAtD_natCast a.keys i (by omega)]
    rw [if_neg hnostep]
    exact typeSwitch_matrix_relative cfg a state _ _ _ hdt hlm

/-- Witness for C3: on the identity-quaternion track with a `RELATIVE`
cursor carrying one repeat and offset `(1, 0, 0, 0)`, the interior result
equals the `CYCLE` result plus the scaled offset, component-wise. -/
theorem C3_relative_offset_witness :
    (_interpolate defaultConfig quatTrack 5 relQuatCursor).1 =
      Value.add
        (_interpolate defaultConfig quatTrack 5
          { relQuatCursor with loopMode := some ANIMATIONLOOPMODE_CYCLE }).1
        ((Value.quat 1 0 0 0).scale ((relQuatCursor.repeatCount : ℚ))) :=
  (C3_relative_offset defaultConfig quatTrack (by decide) 5 relQuatCursor (by decide)
    (by decide) rfl (Value.quat 1 0 0 0) rfl 0 (by decide) (by decide) (by decide)
    (by decide) (by decide) (by decide)).1 (Or.inr (Or.inl rfl))

/-- Counterexample to C3 as stated: on the identity-quaternion track, the
interpolated value at frame 5 is `(0, 0, 0, 1)` and the `RELATIVE` result
with repeat 1 and offset `(1, 0, 0, 0)` is the component-wise sum
`(1, 0, 0, 1)` — whereas composing the scaled offset via quaternion
multiplication (in either order) yields `(1, 0, 0, 0)`.  The code uses
`addInPlace`, not multiplication. -/
theorem C3_counterexample :
    (_interpolate defaultConfig quatTrack 5
      { relQuatCursor with loopMode := some ANIMATIONLOOPMODE_CYCLE }).1 =
        Value.quat 0 0 0 1 ∧
    (_interpolate defaultConfig quatTrack 5 relQuatCursor).1 = Value.quat 1 0 0 1 ∧
    quatMul (Value.quat 0 0 0 1) ((Value.quat 1 0 0 0).scale 1) = Value.quat 1 0 0 0 ∧
    quatMul ((Value.quat 1 0 0 0).scale 1) (Value.quat 0 0 0 1) = Value.quat 1 0 0 0 ∧
    Value.quat 1 0 0 1 ≠ Value.quat 1 0 0 0 := by
  have h5 : walkRight quatTrack.keys 5 (walkLeft quatTrack.keys 5 relQuatCursor.key) = 0 := by
    decide
  refine ⟨?_, ?_, ?_, ?_, by norm_num⟩
  · rw [_interpolate, if_neg (by decide)]
    rw [show ({ relQuatCursor with loopMode := some ANIMATIONLOOPMODE_CYCLE } : AState).key =
      relQuatCursor.key from rfl, h5]
    rw [show interpolateAtKey defaultConfig quatTrack 5
        { relQuatCursor with loopMode := some ANIMATIONLOOPMODE_CYCLE } 0 =
      (vlerp (Value.quat 0 0 0 1) (Value.quat 0 0 0 1) ((5 - 0) / (10 - 0)),
       { relQuatCursor with loopMode := some ANIMATIONLOOPMODE_CYCLE, key := 0 }) from rfl]
    rw [vlerp]
    rw [show Value.quat (qlerp 0 0 ((5 - 0) / (10 - 0))) (qlerp 0 0 ((5 - 0) / (10 - 0)))
      (qlerp 0 0 ((5 - 0) / (10 - 0))) (qlerp 1 1 ((5 - 0) / (10 - 0))) =
      Value.quat 0 0 0 1 from by norm_num [qlerp]]
  · rw [_interpolate, if_neg (by decide), h5]
    rw [show interpolateAtKey defaultConfig quatTrack 5 relQuatCursor 0 =
      (Value.add (vlerp (Value.quat 0 0 0 1) (Value.quat 0 0 0 1) ((5 - 0) / (10 - 0)))
        ((Value.quat 1 0 0 0).scale ((1 : Nat) : ℚ)),
       { relQuatCursor with key := 0 }) from rfl]
    rw [vlerp]
    rw [show Value.quat (qlerp 0 0 ((5 - 0) / (10 - 0))) (qlerp 0 0 ((5 - 0) / (10 - 0)))
      (qlerp 0 0 ((5 - 0) / (10 - 0))) (qlerp 1 1 ((5 - 0) / (10 - 0))) =
      Value.quat 0 0 0 1 from by norm_num [qlerp]]
    rw [show (Value.quat 1 0 0 0).scale ((1 : Nat) : ℚ) = Value.quat 1 0 0 0 from by
      rw [Value.scale]
      norm_num]
    rw [Value.add]
    norm_num
  · rw [show (Value.quat 1 0 0 0).scale 1 = Value.quat 1 0 0 0 from by
      rw [Value.scale]
      norm_num]
    rw [quatMul]
    norm_num
  · rw [show (Value.quat 1 0 0 0).scale 1 = Value.quat 1 0 0 0 from by
      rw [Value.scale]
      norm_num]
    rw [quatMul]
    norm_num

theorem additiveLoop_done (cfg : AnimConfig) (a : Animation) (rf f1 f2 : ℚ)
    (st : AdditiveLoopState) (h1 : st.referenceFound = true) (h2 : st.fromKeyFound = true)
    (h3 : st.toKeyFound = true) (fuel : Nat) :
    additiveLoop cfg a rf f1 f2 (fuel + 1) st = some st := by
  simp only [additiveLoop]
  rw [if_neg]
  rintro (h | h | ⟨h, -⟩)
  · simp [h1] at h
  · simp [h2] at h
  · simp [h3] at h

theorem additiveCore_one_key_float (cfg : AnimConfig) (anim : Animation) (k : Key)
    (hk : anim.keys = [k]) (hdt : anim.dataType = ANIMATIONTYPE_FLOAT) (rf : ℚ) :
    additiveCore cfg anim rf none = none := by
  unfold additiveCore
  rw [hk, hdt]
  simp only [List.length_singleton]
  rw [show keyAtD [k] 0 = k from rfl]
  rw [show keyAtD [k] (((1 : Nat) : ℤ) - 1) = k from rfl]
  simp only [if_true, decide_True]
  rw [show ((1 : Nat) * 2 + 8) = 9 + 1 from by norm_num]
  rw [additiveLoop_done cfg anim rf k.frame k.frame _ rfl rfl rfl 9]
  simp only [Option.bind_eq_bind, Option.some_bind]
  rw [show processReference ANIMATIONTYPE_FLOAT
    (RefValue.keyObj k) = some (RefValue.keyObj k) from rfl]
  simp only [Option.bind_eq_bind, Option.some_bind]
  rw [show (1 : Nat) - 1 + 1 - 0 = 0 + 1 from by norm_num]
  simp only [additiveSubLoop]
  rw [show ([k].get? 0) = some k from rfl]
  simp only [Option.bind_eq_bind, Option.some_bind]
  rw [if_neg (by simp)]
  obtain ⟨kf, kv, kit, kot, kint⟩ := k
  cases kv <;> rfl

theorem additiveSelect_keys (t : Animation) (c : Bool) (cn : Option String) :
    (additiveSelect t c cn).keys = t.keys := by
  cases c with
  | false => rfl
  | true => rfl

theorem additiveSelect_dataType (t : Animation) (c : Bool) (cn : Option String) :
    (additiveSelect t c cn).dataType = t.dataType := by
  cases c with
  | false => rfl
  | true => rfl

/-- C4 (amended).  `MakeAnimationAdditive` on a single-key float track does
not return the unchanged track: the "reference value" is the raw key object
(`_getKeyValue(animation._keys[0])` is missing `.value`), and the subtraction
pass still runs over the non-empty index range `[0, 0]`, so the sole key's
float value is combined with a key object rather than a number.  In the
model this junk state is `none`; the source produces `NaN`. -/
theorem C4_one_key_additive (cfg : AnimConfig) (t : Animation) (k : Key)
    (hk : t.keys = [k]) (hdt : t.dataType = ANIMATIONTYPE_FLOAT) (r : ℚ)
    (c : Bool) (cn : Option String) :
    MakeAnimationAdditive cfg t r none c cn = none := by
  unfold MakeAnimationAdditive
  rw [additiveSelect_keys, hk]
  rw [if_neg (show ¬(([k] : List Key).length = 0) from by simp)]
  exact additiveCore_one_key_float cfg _ k
    (by rw [additiveSelect_keys, hk]) (by rw [additiveSelect_dataType, hdt]) _

/-- Witness for C4: the concrete one-key float track. -/
theorem C4_one_key_additive_witness :
    MakeAnimationAdditive defaultConfig oneKeyTrack 0 none false none = none :=
  C4_one_key_additive defaultConfig oneKeyTrack (mkKey 0 (Value.float 1)) rfl rfl 0 false none

/-- Counterexample to C4 as stated: the additive conversion of a one-key
float track is not the track unchanged. -/
theorem C4_counterexample :
    MakeAnimationAdditive defaultConfig oneKeyTrack 0 none false none ≠ some oneKeyTrack := by
  have h : MakeAnimationAdditive defaultConfig oneKeyTrack 0 none false none = none := by
    unfold MakeAnimationAdditive
    rw [additiveSelect_keys]
    rw [if_neg (show ¬(oneKeyTrack.keys.length = 0) from by decide)]
    exact additiveCore_one_key_float defaultConfig _ (mkKey 0 (Value.float 1)) rfl rfl _
  simp [h]

/-- C10.  A negative `referenceFrame` passed to `MakeAnimationAdditive` is
clamped to `0` before any use (`referenceFrame = referenceFrame >= 0 ?
referenceFrame : 0`), so the call behaves exactly as with reference frame
`0`. -/
theorem C10_negative_reference_clamp (cfg : AnimConfig) (t : Animation) (r : ℚ)
    (rng : Option String) (c : Bool) (cn : Option String) (hr : r < 0) :
    MakeAnimationAdditive cfg t r rng c cn = MakeAnimationAdditive cfg t 0 rng c cn := by
  unfold MakeAnimationAdditive
  rw [if_neg (show ¬(r ≥ 0) from not_le.mpr hr), if_pos (show (0 : ℚ) ≥ 0 from le_refl 0)]

/-- Witness for C10 at reference frame `-7`. -/
theorem C10_negative_reference_clamp_witness :
    MakeAnimationAdditive defaultConfig plainTrack (-7) none false none =
      MakeAnimationAdditive defaultConfig plainTrack 0 none false none :=
  C10_negative_reference_clamp defaultConfig plainTrack (-7) none false none (by decide)

theorem deleteKeysPass_eq (f t : ℚ) :
    ∀ (n : Nat) (keys : List Key), n ≤ keys.length →
      deleteKeysPass f t keys n =
        (keys.take n).filter (fun k => !(decide (f ≤ k.frame ∧ k.frame ≤ t)))
          ++ keys.drop n := by
  intro n
  induction n with
  | zero => intro keys _; simp [deleteKeysPass]
  | succ n ih =>
    intro keys hn
    have hlt : n < keys.length := Nat.lt_of_succ_le hn
    have hget : keys.get? n = some keys[n] := List.get?_eq_get hlt
    rw [deleteKeysPass]
    rw [hget]
    change deleteKeysPass f t
      (if f ≤ (keys[n]).frame ∧ (keys[n]).frame ≤ t then keys.eraseIdx n else keys) n = _
    by_cases hq : f ≤ (keys[n]).frame ∧ (keys[n]).frame ≤ t
    · rw [if_pos hq]
      have herase : keys.eraseIdx n = keys.take n ++ keys.drop (n + 1) :=
        List.eraseIdx_eq_take_drop_succ keys n
      have hlen : (keys.take n).length = n := List.length_take_of_le (Nat.le_of_lt hlt)
      have htake : (keys.eraseIdx n).take n = keys.take n := by
        rw [herase]; exact List.take_left' hlen
      have hdrop : (keys.eraseIdx n).drop n = keys.drop (n + 1) := by
        rw [herase]; exact List.drop_left' hlen
      have hlen2 : n ≤ (keys.eraseIdx n).length := by
        rw [herase, List.length_append, hlen]; exact Nat.le_add_right n _
      rw [ih (keys.eraseIdx n) hlen2, htake, hdrop]
      rw [List.take_succ, List.getElem?_eq_getElem hlt]
      simp only [Option.toList_some, List.filter_append]
      rw [show (List.filter (fun k => !(decide (f ≤ k.frame ∧ k.frame ≤ t))) [keys[n]]) =
        [] from by simp [List.filter, hq]]
      simp
    · rw [if_neg hq]
      rw [ih keys (Nat.le_of_lt hlt)]
      rw [List.take_succ, List.getElem?_eq_getElem hlt]
      simp only [Option.toList_some, List.filter_append]
      rw [show (List.filter (fun k => !(decide (f ≤ k.frame ∧ k.frame ≤ t))) [keys[n]]) =
        [keys[n]] from by simp [List.filter, hq]]
      rw [List.drop_eq_getElem_cons hlt]
      simp

theorem lookup_tombstone (l : List (String × Option AnimationRange)) (n : String)
    (h : (l.lookup n).isSome) :
    (l.map (fun e => if e.1 = n then (e.1, none) else e)).lookup n = some none := by
  induction l with
  | nil => simp [List.lookup] at h
  | cons e tl ih =>
    rw [List.map_cons]
    by_cases he : e.1 = n
    · rw [if_pos he]
      simp only [List.lookup]
      rw [show (n == e.1) = true from by simp [he]]
    · rw [if_neg he]
      simp only [List.lookup] at h ⊢
      rw [show (n == e.1) = false from by simp [Ne.symm he]] at h ⊢
      exact ih h

/-- C7.  `deleteRange(n, true)` on a track holding a live range entry named
`n` with interval `[from, to]` removes exactly the keys whose frame lies in
`[from, to]` inclusive (a filter: all other keys survive in order) and
tombstones the entry: the mapping still contains the name, now bound to
`null`. -/
theorem C7_delete_range (a : Animation) (n : String) (r : AnimationRange)
    (h : a.ranges.lookup n = some (some r)) :
    (a.deleteRange n true).keys =
      a.keys.filter (fun k => !(decide (r.fromFrame ≤ k.frame ∧ k.frame ≤ r.toFrame)))
    ∧ (a.deleteRange n true).ranges.lookup n = some none := by
  unfold Animation.deleteRange
  rw [h]
  constructor
  · show deleteKeysPass r.fromFrame r.toFrame a.keys a.keys.length = _
    rw [deleteKeysPass_eq r.fromFrame r.toFrame a.keys.length a.keys (le_refl _)]
    simp
  · show (a.ranges.map (fun e => if e.1 = n then (e.1, none) else e)).lookup n = some none
    exact lookup_tombstone a.ranges n (by rw [h]; rfl)

/-- Witness for C7: keys at frames `[0,5,10,15,20]` with range `(5,15)`
leave exactly the keys at `[0,20]`, and the range name maps to `null`. -/
theorem C7_delete_range_witness :
    (rangeTrack.deleteRange "walk" true).keys =
      [mkKey 0 (Value.float 0), mkKey 20 (Value.float 4)]
    ∧ (rangeTrack.deleteRange "walk" true).ranges.lookup "walk" = some none := by
  have h := C7_delete_range rangeTrack "walk" ⟨"walk", 5, 15⟩ (by decide)
  exact ⟨h.1.trans (by decide), h.2⟩

theorem eventLE_trans : ∀ (a b c : AnimEvent), eventLE a b → eventLE b c → eventLE a c := by
  intro a b c hab hbc
  simp only [eventLE, decide_eq_true_eq] at hab hbc ⊢
  exact le_trans hab hbc

theorem eventLE_total : ∀ (a b : AnimEvent), eventLE a b || eventLE b a := by
  intro a b
  simp only [eventLE, Bool.or_eq_true, decide_eq_true_eq]
  exact le_total a.frame b.frame

theorem removeEventsList_eq_filter (f : ℚ) (l : List AnimEvent) :
    removeEventsList f l = l.filter (fun x => !(decide (x.frame = f))) := by
  induction l with
  | nil => rfl
  | cons e rest ih =>
    by_cases he : e.frame = f
    · rw [removeEventsList, if_pos he, ih, List.filter_cons,
        show (!(decide (e.frame = f))) = false from by simp [he]]
      simp
    · rw [removeEventsList, if_neg he, ih, List.filter_cons,
        show (!(decide (e.frame = f))) = true from by simp [he]]
      simp

theorem filter_frame_pairwise (c : ℚ) (l : List AnimEvent) :
    (l.filter (fun x => decide (x.frame = c))).Pairwise (fun x y => eventLE x y = true) := by
  apply List.pairwise_of_forall_mem_list
  intro x hx y hy
  have hxc : x.frame = c := by
    have := List.of_mem_filter hx
    simpa using this
  have hyc : y.frame = c := by
    have := List.of_mem_filter hy
    simpa using this
  simp [eventLE, hxc, hyc]

theorem mergeSort_filter_frame (c : ℚ) (l : List AnimEvent) :
    (l.mergeSort eventLE).filter (fun x => decide (x.frame = c)) =
      l.filter (fun x => decide (x.frame = c)) := by
  have h1 : List.Sublist (l.filter (fun x => decide (x.frame = c))) l := List.filter_sublist l
  have h2 := filter_frame_pairwise c l
  have h3 : List.Sublist (l.filter (fun x => decide (x.frame = c))) (l.mergeSort eventLE) :=
    List.sublist_mergeSort eventLE_trans eventLE_total h2 h1
  have h4 : (l.filter (fun x => decide (x.frame = c))).filter
      (fun x => decide (x.frame = c)) = l.filter (fun x => decide (x.frame = c)) := by
    apply List.filter_eq_self.mpr
    intro x hx
    exact (List.mem_filter.mp hx).2
  have h5 : List.Perm ((l.mergeSort eventLE).filter (fun x => decide (x.frame = c)))
      (l.filter (fun x => decide (x.frame = c))) :=
    (List.mergeSort_perm l eventLE).filter _
  have h6 : List.Sublist (l.filter (fun x => decide (x.frame = c)))
      ((l.mergeSort eventLE).filter (fun x => decide (x.frame = c))) := by
    rw [← h4]
    exact h3.filter _
  exact (h6.eq_of_length h5.length_eq.symm).symm

/-- A float track carrying two events, at frames 0 and 5, in insertion
order. -/
def eventTrack : Animation :=
  { plainTrack with events := [⟨0, 0⟩, ⟨5, 1⟩] }

/-- C8.  Event-registry invariants: after `addEvent` the event list is
sorted ascending by frame (the push-then-stable-sort), with events at any
equal frame kept in their insertion order (the filter at each frame value
is unchanged from the pushed list); `removeEvents(f)` removes exactly the
events at frame `f`, keeping all others in place, and preserves
sortedness. -/
theorem C8_events (a : Animation) (e : AnimEvent) (f c : ℚ)
    (hs : a.events.Pairwise (fun x y => x.frame ≤ y.frame)) :
    ((a.addEvent e).events.Pairwise (fun x y => x.frame ≤ y.frame))
    ∧ ((a.addEvent e).events.filter (fun x => decide (x.frame = c)) =
        (a.events ++ [e]).filter (fun x => decide (x.frame = c)))
    ∧ ((a.removeEvents f).events = a.events.filter (fun x => !(decide (x.frame = f))))
    ∧ ((a.removeEvents f).events.Pairwise (fun x y => x.frame ≤ y.frame)) := by
  refine ⟨?_, ?_, ?_, ?_⟩
  · have h := List.sorted_mergeSort eventLE_trans eventLE_total (a.events ++ [e])
    exact h.imp (fun hxy => by simpa [eventLE] using hxy)
  · exact mergeSort_filter_frame c (a.events ++ [e])
  · exact removeEventsList_eq_filter f a.events
  · show (removeEventsList f a.events).Pairwise _
    rw [removeEventsList_eq_filter f a.events]
    exact hs.sublist (List.filter_sublist a.events)

/-- Witness for C8: adding an event at the already-present frame 5 keeps
the list sorted and keeps the old frame-5 event before the new one;
removing frame 5 drops exactly those events. -/
theorem C8_events_witness :
    ((eventTrack.addEvent (AnimEvent.mk 5 2)).events.Pairwise (fun x y => x.frame ≤ y.frame))
    ∧ ((eventTrack.addEvent (AnimEvent.mk 5 2)).events.filter (fun x => decide (x.frame = (5 : ℚ))) =
        (eventTrack.events ++ [(AnimEvent.mk 5 2)]).filter (fun x => decide (x.frame = (5 : ℚ))))
    ∧ ((eventTrack.removeEvents 5).events =
        eventTrack.events.filter (fun x => !(decide (x.frame = (5 : ℚ)))))
    ∧ ((eventTrack.removeEvents 5).events.Pairwise (fun x y => x.frame ≤ y.frame)) :=
  C8_events eventTrack (AnimEvent.mk 5 2) 5 5 (by decide)

/-- C9.  Cursor noninterference: one `_interpolate` step through the first
cursor of a two-cursor world leaves the second cursor untouched, and both
the returned value and the first cursor's update agree across any two
worlds whose first cursors agree — they depend only on the frame, that
cursor, and the track, never on the other cursor's state (so independent
playbacks never observe each other's cached key index). -/
theorem C9_cursor_noninterference (cfg : AnimConfig) (a : Animation) (f : ℚ)
    (w w' : CursorPair) (h : w.c1 = w'.c1) :
    (evalOn cfg a f w true).1 = (evalOn cfg a f w' true).1
    ∧ (evalOn cfg a f w true).2.c1 = (evalOn cfg a f w' true).2.c1
    ∧ (evalOn cfg a f w true).2.c2 = w.c2
    ∧ (evalOn cfg a f w' true).2.c2 = w'.c2 := by
  refine ⟨?_, ?_, ?_, ?_⟩ <;> simp [evalOn, h]

/-- Witness for C9: two worlds sharing the first cursor but with different
second cursors (fresh vs. mid-playback with a stale index hint). -/
theorem C9_cursor_noninterference_witness :
    ((evalOn defaultConfig plainTrack 1
        ⟨mkAState 0 0 ANIMATIONLOOPMODE_CONSTANT, mkAState 0 0 ANIMATIONLOOPMODE_CONSTANT⟩ true).1 =
      (evalOn defaultConfig plainTrack 1
        ⟨mkAState 0 0 ANIMATIONLOOPMODE_CONSTANT, mkAState 3 7 ANIMATIONLOOPMODE_CYCLE⟩ true).1)
    ∧ ((evalOn defaultConfig plainTrack 1
        ⟨mkAState 0 0 ANIMATIONLOOPMODE_CONSTANT, mkAState 0 0 ANIMATIONLOOPMODE_CONSTANT⟩ true).2.c1 =
      (evalOn defaultConfig plainTrack 1
        ⟨mkAState 0 0 ANIMATIONLOOPMODE_CONSTANT, mkAState 3 7 ANIMATIONLOOPMODE_CYCLE⟩ true).2.c1)
    ∧ ((evalOn defaultConfig plainTrack 1
        ⟨mkAState 0 0 ANIMATIONLOOPMODE_CONSTANT, mkAState 0 0 ANIMATIONLOOPMODE_CONSTANT⟩ true).2.c2 =
      mkAState 0 0 ANIMATIONLOOPMODE_CONSTANT)
    ∧ ((evalOn defaultConfig plainTrack 1
        ⟨mkAState 0 0 ANIMATIONLOOPMODE_CONSTANT, mkAState 3 7 ANIMATIONLOOPMODE_CYCLE⟩ true).2.c2 =
      mkAState 3 7 ANIMATIONLOOPMODE_CYCLE) :=
  C9_cursor_noninterference defaultConfig plainTrack 1
    ⟨mkAState 0 0 ANIMATIONLOOPMODE_CONSTANT, mkAState 0 0 ANIMATIONLOOPMODE_CONSTANT⟩
    ⟨mkAState 0 0 ANIMATIONLOOPMODE_CONSTANT, mkAState 3 7 ANIMATIONLOOPMODE_CYCLE⟩ rfl

theorem cloneRanges_length_le :
    ∀ (entries : List (String × Option Nat)) (cells : List AnimationRange),
      cells.length ≤ (cloneRanges cells entries).1.length := by
  intro entries
  induction entries with
  | nil => intro cells; exact le_refl _
  | cons e rest ih =>
    intro cells
    obtain ⟨n, o⟩ := e
    cases o with
    | none => simpa only [cloneRanges] using ih cells
    | some r =>
      cases h : cells.get? r with
      | none => simpa only [cloneRanges, h] using ih cells
      | some cell =>
        simp only [cloneRanges, h]
        calc cells.length ≤ (cells ++ [cell]).length := by simp
          _ ≤ _ := ih (cells ++ [cell])

theorem cloneRanges_get?_lt :
    ∀ (entries : List (String × Option Nat)) (cells : List AnimationRange) (i : Nat),
      i < cells.length → (cloneRanges cells entries).1.get? i = cells.get? i := by
  intro entries
  induction entries with
  | nil => intro cells i _; rfl
  | cons e rest ih =>
    intro cells i hi
    obtain ⟨n, o⟩ := e
    cases o with
    | none => simpa only [cloneRanges] using ih cells i hi
    | some r =>
      cases h : cells.get? r with
      | none => simpa only [cloneRanges, h] using ih cells i hi
      | some cell =>
        simp only [cloneRanges, h]
        rw [ih (cells ++ [cell]) i (by simp; omega)]
        exact List.get?_append hi

theorem cloneRanges_refs_ge :
    ∀ (entries : List (String × Option Nat)) (cells : List AnimationRange) (n : String) (r : Nat),
      (n, some r) ∈ (cloneRanges cells entries).2 → cells.length ≤ r := by
  intro entries
  induction entries with
  | nil => intro cells n r h; simp [cloneRanges] at h
  | cons e rest ih =>
    intro cells n r h
    obtain ⟨n', o⟩ := e
    cases o with
    | none =>
      simp only [cloneRanges] at h
      exact ih cells n r h
    | some r' =>
      cases hg : cells.get? r' with
      | none =>
        simp only [cloneRanges, hg] at h
        exact ih cells n r h
      | some cell =>
        simp only [cloneRanges, hg, List.mem_cons] at h
        rcases h with h | h
        · have h2 : some r = some cells.length := congrArg Prod.snd h
          exact le_of_eq (Option.some.inj h2).symm
        · have := ih (cells ++ [cell]) n r h
          simp at this
          omega

/-- C5 (amended).  `clone()` shares the key objects and deep-copies only
the ranges.  For every heap and track whose live range references are
in-bounds: the clone's key-reference array equals the source's (so the key
objects are shared, and any in-place key mutation is observed identically
through both tracks — the claimed key independence fails); cloning leaves
the source's observed keys and ranges unchanged; and the ranges really are
independent: writing through any clone range reference never changes the
ranges the source observes, and writing through any source range reference
never changes the ranges the clone observes. -/
theorem C5_clone_sharing (s : ObjStore) (a : RefAnimation)
    (hv : ∀ n r, (n, some r) ∈ a.rangeEntries → r < s.rangeCells.length) :
    ((cloneObj s a).2.keyRefs = a.keyRefs)
    ∧ (observedKeys (cloneObj s a).1 a = observedKeys s a)
    ∧ (observedRanges (cloneObj s a).1 a = observedRanges s a)
    ∧ (∀ n r, (n, some r) ∈ (cloneObj s a).2.rangeEntries → ∀ rg,
        observedRanges (writeRangeCell (cloneObj s a).1 r rg) a =
          observedRanges (cloneObj s a).1 a)
    ∧ (∀ n r, (n, some r) ∈ a.rangeEntries → ∀ rg,
        observedRanges (writeRangeCell (cloneObj s a).1 r rg) (cloneObj s a).2 =
          observedRanges (cloneObj s a).1 (cloneObj s a).2)
    ∧ (∀ i k, observedKeys (writeKeyCell (cloneObj s a).1 i k) a =
        observedKeys (writeKeyCell (cloneObj s a).1 i k) (cloneObj s a).2) := by
  refine ⟨rfl, rfl, ?_, ?_, ?_, fun i k => rfl⟩
  · apply List.map_congr_left
    intro e he
    obtain ⟨n, o⟩ := e
    cases o with
    | none => rfl
    | some r =>
      have hr : r < s.rangeCells.length := hv n r he
      show (n, ((cloneObj s a).1.rangeCells.get? r)) = (n, s.rangeCells.get? r)
      rw [show (cloneObj s a).1.rangeCells =
        (cloneRanges s.rangeCells a.rangeEntries).1 from rfl]
      rw [cloneRanges_get?_lt a.rangeEntries s.rangeCells r hr]
  · intro n r hmem rg
    have hge : s.rangeCells.length ≤ r :=
      cloneRanges_refs_ge a.rangeEntries s.rangeCells n r hmem
    apply List.map_congr_left
    intro e he
    obtain ⟨n', o⟩ := e
    cases o with
    | none => rfl
    | some r' =>
      have hr' : r' < s.rangeCells.length := hv n' r' he
      have hne : r ≠ r' := by omega
      show (n', ((writeRangeCell (cloneObj s a).1 r rg).rangeCells.get? r')) =
        (n', ((cloneObj s a).1.rangeCells.get? r'))
      rw [show (writeRangeCell (cloneObj s a).1 r rg).rangeCells =
        (cloneObj s a).1.rangeCells.set r rg from rfl]
      rw [List.get?_set_ne rg (cloneObj s a).1.rangeCells hne]
  · intro n r hmem rg
    have hr : r < s.rangeCells.length := hv n r hmem
    apply List.map_congr_left
    intro e he
    obtain ⟨n', o⟩ := e
    cases o with
    | none => rfl
    | some r' =>
      have hge : s.rangeCells.length ≤ r' :=
        cloneRanges_refs_ge a.rangeEntries s.rangeCells n' r' he
      have hne : r ≠ r' := by omega
      show (n', ((writeRangeCell (cloneObj s a).1 r rg).rangeCells.get? r')) =
        (n', ((cloneObj s a).1.rangeCells.get? r'))
      rw [show (writeRangeCell (cloneObj s a).1 r rg).rangeCells =
        (cloneObj s a).1.rangeCells.set r rg from rfl]
      rw [List.get?_set_ne rg (cloneObj s a).1.rangeCells hne]

/-- A heap with one key object and one live range object, and the track
referencing them. -/
def rangeStore : ObjStore :=
  { keyCells := [mkKey 0 (Value.float 1)],
    rangeCells := [⟨"walk", 5, 15⟩] }

def rangeRefTrack : RefAnimation :=
  { keyRefs := [0], rangeEntries := [("walk", some 0)] }

/-- Counterexample to C5 as stated: the clone's key array is built with
`this._keys.slice(0)` — the key objects themselves are shared — so writing
through the clone's key reference 0 changes the keys the SOURCE track
observes. -/
theorem C5_counterexample :
    ((cloneObj oneKeyStore oneKeyRefTrack).2.keyRefs = [0])
    ∧ observedKeys
        (writeKeyCell (cloneObj oneKeyStore oneKeyRefTrack).1 0 (mkKey 99 (Value.float 5)))
        oneKeyRefTrack ≠
      observedKeys (cloneObj oneKeyStore oneKeyRefTrack).1 oneKeyRefTrack := by
  constructor
  · rfl
  · decide

/-- Witness for C5: in a heap with one range cell, the clone's fresh range
reference is 1; writing cell 1 leaves the source's ranges unchanged, and
writing the source's cell 0 leaves the clone's ranges unchanged. -/
theorem C5_clone_sharing_witness :
    ((cloneObj rangeStore rangeRefTrack).2.keyRefs = rangeRefTrack.keyRefs)
    ∧ (observedRanges
        (writeRangeCell (cloneObj rangeStore rangeRefTrack).1 1 ⟨"walk", 0, 1⟩)
        rangeRefTrack =
      observedRanges (cloneObj rangeStore rangeRefTrack).1 rangeRefTrack)
    ∧ (observedRanges
        (writeRangeCell (cloneObj rangeStore rangeRefTrack).1 0 ⟨"walk", 0, 1⟩)
        (cloneObj rangeStore rangeRefTrack).2 =
      observedRanges (cloneObj rangeStore rangeRefTrack).1 (cloneObj rangeStore rangeRefTrack).2) := by
  have h := C5_clone_sharing rangeStore rangeRefTrack (by
    intro n r hmem
    simp [rangeRefTrack] at hmem
    rw [hmem.2]
    decide)
  exact ⟨h.1, h.2.2.2.1 "walk" 1 (by decide) ⟨"walk", 0, 1⟩,
    h.2.2.2.2.1 "walk" 0 (by decide) ⟨"walk", 0, 1⟩⟩

/-- The data types the `serialize()` switch emits key `values` for at all
(vector2 and size fall through and are dropped). -/
def serializableType (dt : Nat) : Bool :=
  decide (dt = ANIMATIONTYPE_FLOAT) || decide (dt = ANIMATIONTYPE_QUATERNION) ||
  decide (dt = ANIMATIONTYPE_MATRIX) || decide (dt = ANIMATIONTYPE_VECTOR3) ||
  decide (dt = ANIMATIONTYPE_COLOR3) || decide (dt = ANIMATIONTYPE_COLOR4)

theorem parseKey_serializeKey (dt : Nat) (k : Key) (hdt : serializableType dt = true)
    (hok : serOKKey dt k = true) : parseKey dt (serializeKey dt k) = k := by
  obtain ⟨f, v, it, ot, ip⟩ := k
  simp only [serializableType, Bool.or_eq_true, decide_eq_true_eq] at hdt
  rcases hdt with ((((h | h) | h) | h) | h) | h
  · -- FLOAT
    subst h
    cases v <;> try (exfalso; simp +decide [serOKKey, shapeOK, tangentSurvives,
      interpSurvives, AnimationKeyInterpolation_STEP, ANIMATIONTYPE_FLOAT,
      ANIMATIONTYPE_VECTOR2, ANIMATIONTYPE_VECTOR3, ANIMATIONTYPE_QUATERNION,
      ANIMATIONTYPE_MATRIX, ANIMATIONTYPE_COLOR3, ANIMATIONTYPE_COLOR4,
      ANIMATIONTYPE_SIZE] at hok; done)
    rcases it with _ | t
    all_goals try cases t
    all_goals try (exfalso; simp +decide [serOKKey, shapeOK, tangentSurvives,
      interpSurvives, AnimationKeyInterpolation_STEP, ANIMATIONTYPE_FLOAT,
      ANIMATIONTYPE_VECTOR2, ANIMATIONTYPE_VECTOR3, ANIMATIONTYPE_QUATERNION,
      ANIMATIONTYPE_MATRIX, ANIMATIONTYPE_COLOR3, ANIMATIONTYPE_COLOR4,
      ANIMATIONTYPE_SIZE] at hok; done)
    all_goals rcases ot with _ | t2
    all_goals try cases t2
    all_goals try (exfalso; simp +decide [serOKKey, shapeOK, tangentSurvives,
      interpSurvives, AnimationKeyInterpolation_STEP, ANIMATIONTYPE_FLOAT,
      ANIMATIONTYPE_VECTOR2, ANIMATIONTYPE_VECTOR3, ANIMATIONTYPE_QUATERNION,
      ANIMATIONTYPE_MATRIX, ANIMATIONTYPE_COLOR3, ANIMATIONTYPE_COLOR4,
      ANIMATIONTYPE_SIZE] at hok; done)
    all_goals rcases ip with _ | q
    all_goals try (exfalso; simp +decide [serOKKey, shapeOK, tangentSurvives,
      interpSurvives, AnimationKeyInterpolation_STEP, ANIMATIONTYPE_FLOAT,
      ANIMATIONTYPE_VECTOR2, ANIMATIONTYPE_VECTOR3, ANIMATIONTYPE_QUATERNION,
      ANIMATIONTYPE_MATRIX, ANIMATIONTYPE_COLOR3, ANIMATIONTYPE_COLOR4,
      ANIMATIONTYPE_SIZE] at hok; done)
    all_goals first
      | rfl
      | (simp +decide [serOKKey, shapeOK, tangentSurvives, interpSurvives,
          AnimationKeyInterpolation_STEP, ANIMATIONTYPE_FLOAT, ANIMATIONTYPE_VECTOR2,
          ANIMATIONTYPE_VECTOR3, ANIMATIONTYPE_QUATERNION, ANIMATIONTYPE_MATRIX,
          ANIMATIONTYPE_COLOR3, ANIMATIONTYPE_COLOR4, ANIMATIONTYPE_SIZE] at hok;
         subst hok; rfl)
  · -- QUATERNION
    subst h
    cases v <;> try (exfalso; simp +decide [serOKKey, shapeOK, tangentSurvives,
      interpSurvives, AnimationKeyInterpolation_STEP, ANIMATIONTYPE_FLOAT,
      ANIMATIONTYPE_VECTOR2, ANIMATIONTYPE_VECTOR3, ANIMATIONTYPE_QUATERNION,
      ANIMATIONTYPE_MATRIX, ANIMATIONTYPE_COLOR3, ANIMATIONTYPE_COLOR4,
      ANIMATIONTYPE_SIZE] at hok; done)
    rcases it with _ | t
    all_goals try cases t
    all_goals try (exfalso; simp +decide [serOKKey, shapeOK, tangentSurvives,
      interpSurvives, AnimationKeyInterpolation_STEP, ANIMATIONTYPE_FLOAT,
      ANIMATIONTYPE_VECTOR2, ANIMATIONTYPE_VECTOR3, ANIMATIONTYPE_QUATERNION,
      ANIMATIONTYPE_MATRIX, ANIMATIONTYPE_COLOR3, ANIMATIONTYPE_COLOR4,
      ANIMATIONTYPE_SIZE] at hok; done)
    all_goals rcases ot with _ | t2
    all_goals try cases t2
    all_goals try (exfalso; simp +decide [serOKKey, shapeOK, tangentSurvives,
      interpSurvives, AnimationKeyInterpolation_STEP, ANIMATIONTYPE_FLOAT,
      ANIMATIONTYPE_VECTOR2, ANIMATIONTYPE_VECTOR3, ANIMATIONTYPE_QUATERNION,
      ANIMATIONTYPE_MATRIX, ANIMATIONTYPE_COLOR3, ANIMATIONTYPE_COLOR4,
      ANIMATIONTYPE_SIZE] at hok; done)
    all_goals rcases ip with _ | q
    all_goals try (exfalso; simp +decide [serOKKey, shapeOK, tangentSurvives,
      interpSurvives, AnimationKeyInterpolation_STEP, ANIMATIONTYPE_FLOAT,
      ANIMATIONTYPE_VECTOR2, ANIMATIONTYPE_VECTOR3, ANIMATIONTYPE_QUATERNION,
      ANIMATIONTYPE_MATRIX, ANIMATIONTYPE_COLOR3, ANIMATIONTYPE_COLOR4,
      ANIMATIONTYPE_SIZE] at hok; done)
    all_goals first
      | rfl
      | (simp +decide [serOKKey, shapeOK, tangentSurvives,
      interpSurvives, AnimationKeyInterpolation_STEP, ANIMATIONTYPE_FLOAT,
      ANIMATIONTYPE_VECTOR2, ANIMATIONTYPE_VECTOR3, ANIMATIONTYPE_QUATERNION,
      ANIMATIONTYPE_MATRIX, ANIMATIONTYPE_COLOR3, ANIMATIONTYPE_COLOR4,
      ANIMATIONTYPE_SIZE] at hok; subst hok; rfl)
  · -- MATRIX
    subst h
    rcases v with _ | _ | _ | _ | _ | _ | _ | m
    all_goals try (exfalso; simp +decide [serOKKey, shapeOK, tangentSurvives,
      interpSurvives, AnimationKeyInterpolation_STEP, ANIMATIONTYPE_FLOAT,
      ANIMATIONTYPE_VECTOR2, ANIMATIONTYPE_VECTOR3, ANIMATIONTYPE_QUATERNION,
      ANIMATIONTYPE_MATRIX, ANIMATIONTYPE_COLOR3, ANIMATIONTYPE_COLOR4,
      ANIMATIONTYPE_SIZE] at hok; done)
    rcases it with _ | t
    all_goals try cases t
    all_goals try (exfalso; simp +decide [serOKKey, shapeOK, tangentSurvives,
      interpSurvives, AnimationKeyInterpolation_STEP, ANIMATIONTYPE_FLOAT,
      ANIMATIONTYPE_VECTOR2, ANIMATIONTYPE_VECTOR3, ANIMATIONTYPE_QUATERNION,
      ANIMATIONTYPE_MATRIX, ANIMATIONTYPE_COLOR3, ANIMATIONTYPE_COLOR4,
      ANIMATIONTYPE_SIZE] at hok; done)
    all_goals rcases ot with _ | t2
    all_goals try cases t2
    all_goals try (exfalso; simp +decide [serOKKey, shapeOK, tangentSurvives,
      interpSurvives, AnimationKeyInterpolation_STEP, ANIMATIONTYPE_FLOAT,
      ANIMATIONTYPE_VECTOR2, ANIMATIONTYPE_VECTOR3, ANIMATIONTYPE_QUATERNION,
      ANIMATIONTYPE_MATRIX, ANIMATIONTYPE_COLOR3, ANIMATIONTYPE_COLOR4,
      ANIMATIONTYPE_SIZE] at hok; done)
    all_goals rcases ip with _ | q
    all_goals try (exfalso; simp +decide [serOKKey, shapeOK, tangentSurvives,
      interpSurvives, AnimationKeyInterpolation_STEP, ANIMATIONTYPE_FLOAT,
      ANIMATIONTYPE_VECTOR2, ANIMATIONTYPE_VECTOR3, ANIMATIONTYPE_QUATERNION,
      ANIMATIONTYPE_MATRIX, ANIMATIONTYPE_COLOR3, ANIMATIONTYPE_COLOR4,
      ANIMATIONTYPE_SIZE] at hok; done)
    have hm : m.length = 16 := by
      simp +decide [serOKKey, shapeOK, tangentSurvives,
      interpSurvives, AnimationKeyInterpolation_STEP, ANIMATIONTYPE_FLOAT,
      ANIMATIONTYPE_VECTOR2, ANIMATIONTYPE_VECTOR3, ANIMATIONTYPE_QUATERNION,
      ANIMATIONTYPE_MATRIX, ANIMATIONTYPE_COLOR3, ANIMATIONTYPE_COLOR4,
      ANIMATIONTYPE_SIZE] at hok
      exact hok
    have hlen : (m.map SVal.num).length = 16 := by simp [hm]
    simp +decide [parseKey, serializeKey, pushOptionalSlots, svalAt, SVal.asNum,
      hm, hlen, Value.asArray, ANIMATIONTYPE_FLOAT, ANIMATIONTYPE_QUATERNION,
      ANIMATIONTYPE_MATRIX, ANIMATIONTYPE_COLOR3, ANIMATIONTYPE_COLOR4, List.map_map,
      Function.comp]
    rw [show (SVal.asNum ∘ SVal.num) = id from funext (fun q => rfl)]
    rw [List.map_id]
    exact List.take_of_length_le (by omega)
  · -- VECTOR3
    subst h
    cases v <;> try (exfalso; simp +decide [serOKKey, shapeOK, tangentSurvives,
      interpSurvives, AnimationKeyInterpolation_STEP, ANIMATIONTYPE_FLOAT,
      ANIMATIONTYPE_VECTOR2, ANIMATIONTYPE_VECTOR3, ANIMATIONTYPE_QUATERNION,
      ANIMATIONTYPE_MATRIX, ANIMATIONTYPE_COLOR3, ANIMATIONTYPE_COLOR4,
      ANIMATIONTYPE_SIZE] at hok; done)
    rcases it with _ | t
    all_goals try cases t
    all_goals try (exfalso; simp +decide [serOKKey, shapeOK, tangentSurvives,
      interpSurvives, AnimationKeyInterpolation_STEP, ANIMATIONTYPE_FLOAT,
      ANIMATIONTYPE_VECTOR2, ANIMATIONTYPE_VECTOR3, ANIMATIONTYPE_QUATERNION,
      ANIMATIONTYPE_MATRIX, ANIMATIONTYPE_COLOR3, ANIMATIONTYPE_COLOR4,
      ANIMATIONTYPE_SIZE] at hok; done)
    all_goals rcases ot with _ | t2
    all_goals try cases t2
    all_goals try (exfalso; simp +decide [serOKKey, shapeOK, tangentSurvives,
      interpSurvives, AnimationKeyInterpolation_STEP, ANIMATIONTYPE_FLOAT,
      ANIMATIONTYPE_VECTOR2, ANIMATIONTYPE_VECTOR3, ANIMATIONTYPE_QUATERNION,
      ANIMATIONTYPE_MATRIX, ANIMATIONTYPE_COLOR3, ANIMATIONTYPE_COLOR4,
      ANIMATIONTYPE_SIZE] at hok; done)
    all_goals rcases ip with _ | q
    all_goals try (exfalso; simp +decide [serOKKey, shapeOK, tangentSurvives,
      interpSurvives, AnimationKeyInterpolation_STEP, ANIMATIONTYPE_FLOAT,
      ANIMATIONTYPE_VECTOR2, ANIMATIONTYPE_VECTOR3, ANIMATIONTYPE_QUATERNION,
      ANIMATIONTYPE_MATRIX, ANIMATIONTYPE_COLOR3, ANIMATIONTYPE_COLOR4,
      ANIMATIONTYPE_SIZE] at hok; done)
    all_goals first
      | rfl
      | (simp +decide [serOKKey, shapeOK, tangentSurvives,
      interpSurvives, AnimationKeyInterpolation_STEP, ANIMATIONTYPE_FLOAT,
      ANIMATIONTYPE_VECTOR2, ANIMATIONTYPE_VECTOR3, ANIMATIONTYPE_QUATERNION,
      ANIMATIONTYPE_MATRIX, ANIMATIONTYPE_COLOR3, ANIMATIONTYPE_COLOR4,
      ANIMATIONTYPE_SIZE] at hok; subst hok; rfl)
  · -- COLOR3
    subst h
    cases v <;> try (exfalso; simp +decide [serOKKey, shapeOK, tangentSurvives,
      interpSurvives, AnimationKeyInterpolation_STEP, ANIMATIONTYPE_FLOAT,
      ANIMATIONTYPE_VECTOR2, ANIMATIONTYPE_VECTOR3, ANIMATIONTYPE_QUATERNION,
      ANIMATIONTYPE_MATRIX, ANIMATIONTYPE_COLOR3, ANIMATIONTYPE_COLOR4,
      ANIMATIONTYPE_SIZE] at hok; done)
    rcases it with _ | t
    all_goals try cases t
    all_goals try (exfalso; simp +decide [serOKKey, shapeOK, tangentSurvives,
      interpSurvives, AnimationKeyInterpolation_STEP, ANIMATIONTYPE_FLOAT,
      ANIMATIONTYPE_VECTOR2, ANIMATIONTYPE_VECTOR3, ANIMATIONTYPE_QUATERNION,
      ANIMATIONTYPE_MATRIX, ANIMATIONTYPE_COLOR3, ANIMATIONTYPE_COLOR4,
      ANIMATIONTYPE_SIZE] at hok; done)
    all_goals rcases ot with _ | t2
    all_goals try cases t2
    all_goals try (exfalso; simp +decide [serOKKey, shapeOK, tangentSurvives,
      interpSurvives, AnimationKeyInterpolation_STEP, ANIMATIONTYPE_FLOAT,
      ANIMATIONTYPE_VECTOR2, ANIMATIONTYPE_VECTOR3, ANIMATIONTYPE_QUATERNION,
      ANIMATIONTYPE_MATRIX, ANIMATIONTYPE_COLOR3, ANIMATIONTYPE_COLOR4,
      ANIMATIONTYPE_SIZE] at hok; done)
    all_goals rcases ip with _ | q
    all_goals try (exfalso; simp +decide [serOKKey, shapeOK, tangentSurvives,
      interpSurvives, AnimationKeyInterpolation_STEP, ANIMATIONTYPE_FLOAT,
      ANIMATIONTYPE_VECTOR2, ANIMATIONTYPE_VECTOR3, ANIMATIONTYPE_QUATERNION,
      ANIMATIONTYPE_MATRIX, ANIMATIONTYPE_COLOR3, ANIMATIONTYPE_COLOR4,
      ANIMATIONTYPE_SIZE] at hok; done)
    all_goals first
      | rfl
      | (simp +decide [serOKKey, shapeOK, tangentSurvives,
      interpSurvives, AnimationKeyInterpolation_STEP, ANIMATIONTYPE_FLOAT,
      ANIMATIONTYPE_VECTOR2, ANIMATIONTYPE_VECTOR3, ANIMATIONTYPE_QUATERNION,
      ANIMATIONTYPE_MATRIX, ANIMATIONTYPE_COLOR3, ANIMATIONTYPE_COLOR4,
      ANIMATIONTYPE_SIZE] at hok; subst hok; rfl)
  · -- COLOR4
    subst h
    cases v <;> try (exfalso; simp +decide [serOKKey, shapeOK, tangentSurvives,
      interpSurvives, AnimationKeyInterpolation_STEP, ANIMATIONTYPE_FLOAT,
      ANIMATIONTYPE_VECTOR2, ANIMATIONTYPE_VECTOR3, ANIMATIONTYPE_QUATERNION,
      ANIMATIONTYPE_MATRIX, ANIMATIONTYPE_COLOR3, ANIMATIONTYPE_COLOR4,
      ANIMATIONTYPE_SIZE] at hok; done)
    rcases it with _ | t
    all_goals try cases t
    all_goals try (exfalso; simp +decide [serOKKey, shapeOK, tangentSurvives,
      interpSurvives, AnimationKeyInterpolation_STEP, ANIMATIONTYPE_FLOAT,
      ANIMATIONTYPE_VECTOR2, ANIMATIONTYPE_VECTOR3, ANIMATIONTYPE_QUATERNION,
      ANIMATIONTYPE_MATRIX, ANIMATIONTYPE_COLOR3, ANIMATIONTYPE_COLOR4,
      ANIMATIONTYPE_SIZE] at hok; done)
    all_goals rcases ot with _ | t2
    all_goals try cases t2
    all_goals try (exfalso; simp +decide [serOKKey, shapeOK, tangentSurvives,
      interpSurvives, AnimationKeyInterpolation_STEP, ANIMATIONTYPE_FLOAT,
      ANIMATIONTYPE_VECTOR2, ANIMATIONTYPE_VECTOR3, ANIMATIONTYPE_QUATERNION,
      ANIMATIONTYPE_MATRIX, ANIMATIONTYPE_COLOR3, ANIMATIONTYPE_COLOR4,
      ANIMATIONTYPE_SIZE] at hok; done)
    all_goals rcases ip with _ | q
    all_goals try (exfalso; simp +decide [serOKKey, shapeOK, tangentSurvives,
      interpSurvives, AnimationKeyInterpolation_STEP, ANIMATIONTYPE_FLOAT,
      ANIMATIONTYPE_VECTOR2, ANIMATIONTYPE_VECTOR3, ANIMATIONTYPE_QUATERNION,
      ANIMATIONTYPE_MATRIX, ANIMATIONTYPE_COLOR3, ANIMATIONTYPE_COLOR4,
      ANIMATIONTYPE_SIZE] at hok; done)
    all_goals first
      | rfl
      | (simp +decide [serOKKey, shapeOK, tangentSurvives,
      interpSurvives, AnimationKeyInterpolation_STEP, ANIMATIONTYPE_FLOAT,
      ANIMATIONTYPE_VECTOR2, ANIMATIONTYPE_VECTOR3, ANIMATIONTYPE_QUATERNION,
      ANIMATIONTYPE_MATRIX, ANIMATIONTYPE_COLOR3, ANIMATIONTYPE_COLOR4,
      ANIMATIONTYPE_SIZE] at hok; subst hok; rfl)

theorem createRange_shape (a : Animation) (n : String) (f t : ℚ) :
    ∃ rs, a.createRange n f t = { a with ranges := rs } := by
  unfold Animation.createRange
  cases h : a.ranges.lookup n with
  | none => exact ⟨_, rfl⟩
  | some o =>
    cases o with
    | none => exact ⟨_, rfl⟩
    | some r => exact ⟨a.ranges, rfl⟩

theorem foldl_createRange_shape :
    ∀ (rs : List SRange) (anim : Animation), ∃ R,
      rs.foldl (fun a r => a.createRange r.name r.rFrom r.rTo) anim =
        { anim with ranges := R } := by
  intro rs
  induction rs with
  | nil => intro anim; exact ⟨anim.ranges, rfl⟩
  | cons sr rest ih =>
    intro anim
    obtain ⟨rs1, h1⟩ := createRange_shape anim sr.name sr.rFrom sr.rTo
    obtain ⟨R, hR⟩ := ih (anim.createRange sr.name sr.rFrom sr.rTo)
    refine ⟨R, ?_⟩
    rw [List.foldl_cons, hR, h1]

theorem lookup_append_none (l₁ l₂ : List (String × Option AnimationRange)) (n : String)
    (h1 : l₁.lookup n = none) (h2 : l₂.lookup n = none) :
    (l₁ ++ l₂).lookup n = none := by
  induction l₁ with
  | nil => simpa using h2
  | cons e tl ih =>
    simp only [List.lookup] at h1 ⊢
    cases hb : (n == e.1) with
    | true => rw [hb] at h1; exact absurd h1 (by simp)
    | false =>
      rw [hb] at h1
      exact ih h1

theorem lookup_singleton_ne (n m : String) (v : Option AnimationRange) (h : n ≠ m) :
    ([(m, v)] : List (String × Option AnimationRange)).lookup n = none := by
  simp only [List.lookup]
  rw [show (n == m) = false from by simp [h]]

theorem foldl_createRange_ranges :
    ∀ (rs : List SRange) (anim : Animation),
      (∀ sr ∈ rs, anim.ranges.lookup sr.name = none) →
      (rs.map (fun sr => sr.name)).Nodup →
      (rs.foldl (fun a r => a.createRange r.name r.rFrom r.rTo) anim).ranges =
        anim.ranges ++ rs.map (fun sr =>
          (sr.name, some (⟨sr.name, sr.rFrom, sr.rTo⟩ : AnimationRange))) := by
  intro rs
  induction rs with
  | nil => intro anim _ _; simp
  | cons sr rest ih =>
    intro anim hnone hnodup
    have hhead : anim.ranges.lookup sr.name = none := hnone sr (by simp)
    have hcr : anim.createRange sr.name sr.rFrom sr.rTo =
        { anim with ranges := anim.ranges ++
          [(sr.name, some (⟨sr.name, sr.rFrom, sr.rTo⟩ : AnimationRange))] } := by
      unfold Animation.createRange
      rw [hhead]
    rw [List.foldl_cons, ih (anim.createRange sr.name sr.rFrom sr.rTo) ?hrest ?hnd, hcr]
    · simp
    case hrest =>
      intro sr' hsr'
      rw [hcr]
      apply lookup_append_none
      · exact hnone sr' (by simp [hsr'])
      · apply lookup_singleton_ne
        have hnm := (List.nodup_cons.mp hnodup).1
        intro heq
        apply hnm
        have hmem : sr'.name ∈ List.map (fun sr => sr.name) rest := by
          simpa using List.mem_map_of_mem (fun sr => sr.name) hsr'
        rw [heq] at hmem
        exact hmem
    case hnd => exact (List.nodup_cons.mp hnodup).2

theorem applyEnableBlending_shape (p : SAnimation) (a : Animation) :
    ∃ eb, applyEnableBlending p a = { a with enableBlending := eb } := by
  unfold applyEnableBlending
  cases p.enableBlending with
  | none => exact ⟨a.enableBlending, rfl⟩
  | some b =>
    cases b with
    | false => exact ⟨a.enableBlending, rfl⟩
    | true => exact ⟨some true, rfl⟩

theorem applyBlendingSpeed_shape (p : SAnimation) (a : Animation) :
    ∃ bs, applyBlendingSpeed p a = { a with blendingSpeed := bs } := by
  unfold applyBlendingSpeed
  by_cases hbs : p.blendingSpeed ≠ 0
  · exact ⟨p.blendingSpeed, by rw [if_pos hbs]⟩
  · exact ⟨a.blendingSpeed, by rw [if_neg hbs]⟩

theorem Parse_shape (p : SAnimation) : ∃ eb bs,
    Animation.Parse p = p.ranges.foldl (fun a r => a.createRange r.name r.rFrom r.rTo)
      { name := p.name
        targetProperty := p.property
        targetPropertyPath := p.property.splitOn "."
        framePerSecond := p.framePerSecond
        dataType := p.dataType
        loopMode := p.loopBehavior
        enableBlending := eb
        blendingSpeed := bs
        keys := p.keys.map (parseKey p.dataType)
        ranges := []
        events := []
        easing := none } := by
  obtain ⟨eb, heb⟩ := applyEnableBlending_shape p
    (mkAnimation p.name p.property p.framePerSecond p.dataType (some p.loopBehavior) none)
  obtain ⟨bs, hbs⟩ := applyBlendingSpeed_shape p
    { mkAnimation p.name p.property p.framePerSecond p.dataType (some p.loopBehavior) none
      with enableBlending := eb }
  refine ⟨eb, bs, ?_⟩
  unfold Animation.Parse
  rw [heb, hbs]
  rfl

theorem serialize_ranges_roundtrip :
    ∀ (rs : List (String × Option AnimationRange)),
      (∀ e ∈ rs, ∃ f t, e.2 = some ((⟨e.1, f, t⟩ : AnimationRange))) →
      ((rs.filterMap (fun e => e.2.map (fun r => ((⟨e.1, r.fromFrame, r.toFrame⟩ : SRange))))).map
          (fun sr => (sr.name, some ((⟨sr.name, sr.rFrom, sr.rTo⟩ : AnimationRange)))) = rs)
      ∧ ((rs.filterMap (fun e => e.2.map (fun r => ((⟨e.1, r.fromFrame, r.toFrame⟩ : SRange))))).map
          (fun sr => sr.name) = rs.map Prod.fst) := by
  intro rs
  induction rs with
  | nil => exact fun _ => ⟨rfl, rfl⟩
  | cons e tl ih =>
    intro h
    obtain ⟨f, t, he⟩ := h e (by simp)
    have htl := ih (fun e' he' => h e' (by simp [he']))
    constructor
    · simp only [List.filterMap_cons, he, Option.map_some, Option.map_some', List.map_cons, htl.1]
      rw [show ((e.1, some ((⟨e.1, f, t⟩ : AnimationRange))) : String × Option AnimationRange)
        = (e.1, e.2) from by rw [he]]
    · simp only [List.filterMap_cons, he, Option.map_some, Option.map_some', List.map_cons, htl.2]

/-- C6 (amended).  `Animation.Parse(track.serialize())` reconstructs an
equivalent track only on the shapes the positional pair actually
round-trips: a serialized data type (vector2 and size keys are dropped
entirely), every key well-shaped with tangents only on the types whose
parser reads them back (not quaternion, whose parser expects flattened
tangents where the serializer nests arrays, and not matrix, whose parser
reads no tangents), interpolation flags (`STEP`) only on float, vector3 and
color3 (the quaternion/matrix parsers look at flattened-layout offsets and
the color4 parser mangles the flag), and never the combination
in-tangent-absent/out-tangent-present/flag-present (the serializer double
pads, shifting the flag past the slot the parser reads).  Under those
conditions name, target property, framePerSecond, dataType, loop behavior,
all keys, and all (live, canonically named, duplicate-free) ranges are
reconstructed exactly. -/
theorem C6_roundtrip (a : Animation)
    (hdt : serializableType a.dataType = true)
    (hkeys : ∀ k ∈ a.keys, serOKKey a.dataType k = true)
    (hranges : ∀ e ∈ a.ranges, ∃ f t, e.2 = some ((⟨e.1, f, t⟩ : AnimationRange)))
    (hnodup : (a.ranges.map Prod.fst).Nodup) :
    (Animation.Parse a.serialize).name = a.name
    ∧ (Animation.Parse a.serialize).targetProperty = a.targetProperty
    ∧ (Animation.Parse a.serialize).framePerSecond = a.framePerSecond
    ∧ (Animation.Parse a.serialize).dataType = a.dataType
    ∧ (Animation.Parse a.serialize).loopMode = a.loopMode
    ∧ (Animation.Parse a.serialize).keys = a.keys
    ∧ (Animation.Parse a.serialize).ranges = a.ranges := by
  obtain ⟨eb, bs, hsh⟩ := Parse_shape a.serialize
  obtain ⟨hrt1, hrt2⟩ := serialize_ranges_roundtrip a.ranges hranges
  have hnd : (a.serialize.ranges.map (fun sr => sr.name)).Nodup := by
    show ((a.ranges.filterMap (fun e => e.2.map (fun r =>
      ((⟨e.1, r.fromFrame, r.toFrame⟩ : SRange))))).map (fun sr => sr.name)).Nodup
    rw [hrt2]
    exact hnodup
  have hfold := foldl_createRange_ranges a.serialize.ranges
    { name := a.serialize.name
      targetProperty := a.serialize.property
      targetPropertyPath := a.serialize.property.splitOn "."
      framePerSecond := a.serialize.framePerSecond
      dataType := a.serialize.dataType
      loopMode := a.serialize.loopBehavior
      enableBlending := eb
      blendingSpeed := bs
      keys := a.serialize.keys.map (parseKey a.serialize.dataType)
      ranges := []
      events := []
      easing := none }
    (fun sr _ => rfl) hnd
  obtain ⟨R, hR⟩ := foldl_createRange_shape a.serialize.ranges
    { name := a.serialize.name
      targetProperty := a.serialize.property
      targetPropertyPath := a.serialize.property.splitOn "."
      framePerSecond := a.serialize.framePerSecond
      dataType := a.serialize.dataType
      loopMode := a.serialize.loopBehavior
      enableBlending := eb
      blendingSpeed := bs
      keys := a.serialize.keys.map (parseKey a.serialize.dataType)
      ranges := []
      events := []
      easing := none }
  refine ⟨?_, ?_, ?_, ?_, ?_, ?_, ?_⟩
  · rw [hsh, hR]
    rfl
  · rw [hsh, hR]
    rfl
  · rw [hsh, hR]
    rfl
  · rw [hsh, hR]
    rfl
  · rw [hsh, hR]
    rfl
  · rw [hsh, hR]
    show (a.keys.map (serializeKey a.dataType)).map (parseKey a.dataType) = a.keys
    rw [List.map_map]
    exact (List.map_congr_left fun k hk =>
      parseKey_serializeKey a.dataType k hdt (hkeys k hk)).trans (List.map_id a.keys)
  · rw [hsh, hfold]
    exact hrt1

/-- A float track exercising tangents, a `STEP` flag and a live range. -/
def serTrack : Animation :=
  ((mkAnimation "track" "pos.x" 30 ANIMATIONTYPE_FLOAT none none).setKeys
    [⟨0, Value.float 1, some (Value.float 2), some (Value.float 3), some 1⟩,
     mkKey 10 (Value.float 4)]).createRange "walk" 0 10

/-- Witness for C6: the float track with tangents, `STEP` and a range
round-trips exactly. -/
theorem C6_roundtrip_witness :
    (Animation.Parse serTrack.serialize).name = serTrack.name
    ∧ (Animation.Parse serTrack.serialize).targetProperty = serTrack.targetProperty
    ∧ (Animation.Parse serTrack.serialize).framePerSecond = serTrack.framePerSecond
    ∧ (Animation.Parse serTrack.serialize).dataType = serTrack.dataType
    ∧ (Animation.Parse serTrack.serialize).loopMode = serTrack.loopMode
    ∧ (Animation.Parse serTrack.serialize).keys = serTrack.keys
    ∧ (Animation.Parse serTrack.serialize).ranges = serTrack.ranges :=
  C6_roundtrip serTrack (by decide) (by decide)
    (fun e he => by
      simp [serTrack, mkAnimation, Animation.setKeys, Animation.createRange, mkKey] at he
      exact ⟨0, 10, by rw [he]⟩)
    (by decide)

/-- Counterexample to C6 as stated: a quaternion key's in-tangent does not
survive the round trip — the serializer nests it as an array while the
parser expects flattened components (and drops what it reads as
`Quaternion.Zero()`), so the reconstructed key has no in-tangent. -/
theorem C6_counterexample :
    (Animation.Parse quatTangentTrack.serialize).keys.map Key.inTangent ≠
      quatTangentTrack.keys.map Key.inTangent := by decide
